import Mathlib

/-!
Verification of the SDS ("Simple Distributed State") core against its
natural-language specification.

The development shallowly embeds the relevant parts of the C sources:

* `src/sds_json.c`  — the JSON writer (buffer, position, error latch);
* `src/sds_core.c`  — the sync scheduler (`sync_table`), inbound dispatch
  (`handle_config_message`, `handle_state_message`, `handle_status_message`,
  `find_or_alloc_status_slot`), the reconnect backoff branch of `sds_loop`,
  and the table registry (`find_table`, `alloc_table_slot`,
  `sds_register_table_ex`, `sds_unregister_table`, `sds_on_config_update`
  and friends).

Machine integers are modeled as `Nat`; the `uint32_t` clock subtractions of
the C source are modeled by `elapsed32`, which performs the wrap-around
subtraction modulo 2^32 exactly as C unsigned arithmetic does.

C byte buffers owned by the caller are modeled as `List Char` (JSON text) or
`List Nat` (raw section bytes).  Generated per-table serializers are sequences
of JSON-writer calls depending only on the section bytes, so they are embedded
as functions from section bytes to `List WriterOp`; generated deserializers
are functions from the raw payload text and the previous section bytes to the
new section bytes.
-/

set_option maxHeartbeats 1000000
set_option maxRecDepth 100000

namespace SDS

/-- The NUL terminator byte, as a `Char`. -/
def nulChar : Char := Char.ofNat 0

/-- `SdsJsonWriter` from `sds_json.h`: output buffer, capacity, write
position, sticky error flag.  The caller's buffer is modeled as a list whose
length is the capacity passed to `sds_json_writer_init`. -/
structure SdsJsonWriter where
  buf : List Char
  size : Nat
  pos : Nat
  error : Bool
deriving Repr, DecidableEq

/-- `sds_json_writer_init` (sds_json.c:15): capacity passed by the caller
(`sizeof(buffer)` at every call site, so `size = buffer.length`), pos = 0,
error cleared, and the first byte NUL-terminated when the capacity is
non-zero. -/
def sds_json_writer_init (buffer : List Char) (size : Nat) : SdsJsonWriter :=
  { buf := if size > 0 then buffer.set 0 nulChar else buffer
    size := size
    pos := 0
    error := false }

/-- `memcpy(buf + i, s, len)`: write the characters of `s` consecutively
starting at index `i`. -/
def bufWriteAt : List Char → Nat → List Char → List Char
  | buf, _, [] => buf
  | buf, i, c :: cs => bufWriteAt (buf.set i c) (i + 1) cs

/-- Common tail of every successful append in sds_json.c: copy the bytes at
`pos`, advance `pos`, and NUL-terminate at the new `pos`. -/
def writeRaw (w : SdsJsonWriter) (s : List Char) : SdsJsonWriter :=
  { w with
    buf := (bufWriteAt w.buf w.pos s).set (w.pos + s.length) nulChar
    pos := w.pos + s.length }

/-- `json_append` (sds_json.c:25): no-op on error; sets the error flag when
`pos + len >= size`; otherwise copies and NUL-terminates. -/
def json_append (w : SdsJsonWriter) (s : List Char) : SdsJsonWriter :=
  if w.error then w
  else if w.size ≤ w.pos + s.length then { w with error := true }
  else writeRaw w s

/-- `json_append_char` (sds_json.c:39). -/
def json_append_char (w : SdsJsonWriter) (c : Char) : SdsJsonWriter :=
  if w.error then w
  else if w.size ≤ w.pos + 1 then { w with error := true }
  else writeRaw w [c]

/-- `hex_digit` (sds_json.c:54). -/
def hex_digit (n : Nat) : Char :=
  if n < 10 then Char.ofNat ('0'.toNat + n) else Char.ofNat ('a'.toNat + n - 10)

/-- The two-character escape table of `json_append_escaped` (sds_json.c:71). -/
def escape2 (c : Char) : Option (List Char) :=
  if c = '"' then some ['\\', '"']
  else if c = '\\' then some ['\\', '\\']
  else if c = '\x08' then some ['\\', 'b']
  else if c = '\x0c' then some ['\\', 'f']
  else if c = '\n' then some ['\\', 'n']
  else if c = '\r' then some ['\\', 'r']
  else if c = '\t' then some ['\\', 't']
  else none

/-- The six-character control escape `\u00XX` (sds_json.c:86). -/
def uEscape (c : Char) : List Char :=
  ['\\', 'u', '0', '0', hex_digit ((c.toNat >>> 4) % 16), hex_digit (c.toNat % 16)]

/-- Loop body of `json_append_escaped` (sds_json.c:66-110).  Mirrors the C
control flow: the two-char and `\u00XX` branches check only for space and
return on overflow; the plain-character branch goes through
`json_append_char` and the loop continues. -/
def json_append_escaped_go (w : SdsJsonWriter) : List Char → SdsJsonWriter
  | [] => w
  | c :: rest =>
    match escape2 c with
    | some e =>
      if w.size ≤ w.pos + 2 then { w with error := true }
      else json_append_escaped_go (writeRaw w e) rest
    | none =>
      if c.toNat < 0x20 then
        if w.size ≤ w.pos + 6 then { w with error := true }
        else json_append_escaped_go (writeRaw w (uEscape c)) rest
      else json_append_escaped_go (json_append_char w c) rest

/-- `json_append_escaped` (sds_json.c:63): early return on a pre-set error. -/
def json_append_escaped (w : SdsJsonWriter) (s : List Char) : SdsJsonWriter :=
  if w.error then w else json_append_escaped_go w s

/-- `needs_comma` (sds_json.c:113). -/
def needs_comma (w : SdsJsonWriter) : Bool :=
  if w.pos = 0 then false
  else
    let last := w.buf.getD (w.pos - 1) nulChar
    last ≠ '\x7b' && last ≠ '['

/-- The `if (needs_comma(w)) json_append_char(w, ',')` prologue shared by all
`sds_json_add_*` functions. -/
def commaMaybe (w : SdsJsonWriter) : SdsJsonWriter :=
  if needs_comma w then json_append_char w ',' else w

/-- `sds_json_start_object` (sds_json.c:120). -/
def sds_json_start_object (w : SdsJsonWriter) : SdsJsonWriter :=
  json_append_char w '\x7b'

/-- `sds_json_end_object` (sds_json.c:124). -/
def sds_json_end_object (w : SdsJsonWriter) : SdsJsonWriter :=
  json_append_char w '\x7d'

/-- `sds_json_add_string` (sds_json.c:128). -/
def sds_json_add_string (w : SdsJsonWriter) (key value : List Char) : SdsJsonWriter :=
  let w1 := commaMaybe w
  let w2 := json_append_char w1 '"'
  let w3 := json_append w2 key
  let w4 := json_append w3 ['"', ':', '"']
  let w5 := json_append_escaped w4 value
  json_append_char w5 '"'

/-- `sds_json_add_int` / `sds_json_add_uint` / `sds_json_add_float`
(sds_json.c:137-171).  The three differ only in the `snprintf`-formatted
numeric literal, which enters the writer as the plain character list
`numStr`. -/
def sds_json_add_num (w : SdsJsonWriter) (key numStr : List Char) : SdsJsonWriter :=
  let w1 := commaMaybe w
  let w2 := json_append_char w1 '"'
  let w3 := json_append w2 key
  let w4 := json_append w3 ['"', ':']
  json_append w4 numStr

/-- `sds_json_add_bool` (sds_json.c:173). -/
def sds_json_add_bool (w : SdsJsonWriter) (key : List Char) (b : Bool) : SdsJsonWriter :=
  let w1 := commaMaybe w
  let w2 := json_append_char w1 '"'
  let w3 := json_append w2 key
  let w4 := json_append w3 ['"', ':']
  json_append w4 (if b then "true".data else "false".data)

/-- One public writer operation (the API surface of sds_json.h). -/
inductive WriterOp where
  | startObject
  | endObject
  | addString (key value : List Char)
  | addNum (key numStr : List Char)
  | addBool (key : List Char) (b : Bool)
deriving Repr, DecidableEq

/-- Apply one writer operation. -/
def applyOp (w : SdsJsonWriter) : WriterOp → SdsJsonWriter
  | .startObject => sds_json_start_object w
  | .endObject => sds_json_end_object w
  | .addString k v => sds_json_add_string w k v
  | .addNum k n => sds_json_add_num w k n
  | .addBool k b => sds_json_add_bool w k b

/-- Apply a sequence of writer operations, left to right. -/
def applyOps (w : SdsJsonWriter) (ops : List WriterOp) : SdsJsonWriter :=
  ops.foldl applyOp w

/-- `sds_json_get_string`/`sds_json_get_length`: the produced message is the
first `pos` bytes of the buffer. -/
def writerOutput (w : SdsJsonWriter) : List Char := w.buf.take w.pos

/-- `sds_json_has_error` (sds_json.c:190). -/
def sds_json_has_error (w : SdsJsonWriter) : Bool := w.error

/-! ### Writer well-formedness: bounded position and NUL termination -/

/-- Well-formedness of a writer over a non-empty buffer: the buffer keeps its
capacity, the position stays strictly below the capacity, and the byte at the
position is the NUL terminator. -/
def WriterInv (w : SdsJsonWriter) : Prop :=
  w.buf.length = w.size ∧ w.pos < w.size ∧ w.buf[w.pos]? = some nulChar

theorem bufWriteAt_length (s : List Char) :
    ∀ (buf : List Char) (i : Nat), (bufWriteAt buf i s).length = buf.length := by
  induction s with
  | nil => intro buf i; rfl
  | cons c cs ih => intro buf i; simp [bufWriteAt, ih]

theorem writeRaw_inv {w : SdsJsonWriter} {s : List Char} (h : WriterInv w)
    (hfit : w.pos + s.length < w.size) : WriterInv (writeRaw w s) := by
  obtain ⟨hlen, _, _⟩ := h
  refine ⟨?_, ?_, ?_⟩
  · simp [writeRaw, bufWriteAt_length, hlen]
  · simpa [writeRaw] using hfit
  · simp only [writeRaw]
    rw [List.getElem?_set_self]
    · simp [bufWriteAt_length, hlen]
      omega

theorem json_append_inv {w : SdsJsonWriter} (s : List Char) (h : WriterInv w) :
    WriterInv (json_append w s) := by
  unfold json_append
  split
  · exact h
  · split
    · exact h
    · exact writeRaw_inv h (by omega)

theorem json_append_char_inv {w : SdsJsonWriter} (c : Char) (h : WriterInv w) :
    WriterInv (json_append_char w c) := by
  unfold json_append_char
  split
  · exact h
  · split
    · exact h
    · exact writeRaw_inv h (by simpa using by omega)

theorem json_append_escaped_go_inv (s : List Char) :
    ∀ {w : SdsJsonWriter}, WriterInv w → WriterInv (json_append_escaped_go w s) := by
  induction s with
  | nil => intro w h; exact h
  | cons c cs ih =>
    intro w h
    unfold json_append_escaped_go
    split
    · split
      · exact h
      · refine ih (writeRaw_inv h ?_)
        rename_i e heq _
        have : e.length = 2 := by
          unfold escape2 at heq
          repeat' split at heq
          all_goals first
          | (cases heq; rfl)
          | exact Option.noConfusion heq
        omega
    · split
      · split
        · exact h
        · refine ih (writeRaw_inv h ?_)
          simp [uEscape]
          omega
      · exact ih (json_append_char_inv c h)

theorem json_append_escaped_inv {w : SdsJsonWriter} (s : List Char) (h : WriterInv w) :
    WriterInv (json_append_escaped w s) := by
  unfold json_append_escaped
  split
  · exact h
  · exact json_append_escaped_go_inv s h

theorem commaMaybe_inv {w : SdsJsonWriter} (h : WriterInv w) :
    WriterInv (commaMaybe w) := by
  unfold commaMaybe
  split
  · exact json_append_char_inv _ h
  · exact h

theorem applyOp_inv {w : SdsJsonWriter} (op : WriterOp) (h : WriterInv w) :
    WriterInv (applyOp w op) := by
  cases op <;>
    simp only [applyOp, sds_json_start_object, sds_json_end_object, sds_json_add_string,
      sds_json_add_num, sds_json_add_bool] <;>
    repeat'
      first
      | exact json_append_char_inv _ (commaMaybe_inv h)
      | apply json_append_char_inv
      | apply json_append_inv
      | apply json_append_escaped_inv
      | apply commaMaybe_inv
      | exact h

theorem applyOps_inv {w : SdsJsonWriter} (ops : List WriterOp) (h : WriterInv w) :
    WriterInv (applyOps w ops) := by
  induction ops generalizing w with
  | nil => exact h
  | cons op rest ih => exact ih (applyOp_inv op h)

theorem writer_init_inv {buffer : List Char} {size : Nat}
    (hlen : buffer.length = size) (hbuf : 1 ≤ size) :
    WriterInv (sds_json_writer_init buffer size) := by
  refine ⟨?_, ?_, ?_⟩
  · simp only [sds_json_writer_init]
    split <;> simp [hlen]
  · simpa [sds_json_writer_init] using hbuf
  · simp only [sds_json_writer_init]
    have hpos : (0 : Nat) < size := hbuf
    simp only [hpos, if_pos]
    rw [List.getElem?_set_self]
    omega

/-- Once the error flag is set, every writer operation is the identity on the
whole writer state (buffer bytes, position, and the flag itself). -/
theorem applyOp_error_id (w : SdsJsonWriter) (op : WriterOp) (h : w.error = true) :
    applyOp w op = w := by
  have happ : ∀ s, json_append w s = w := by intro s; simp [json_append, h]
  have hch : ∀ c, json_append_char w c = w := by intro c; simp [json_append_char, h]
  have hcm : commaMaybe w = w := by
    unfold commaMaybe
    split
    · exact hch ','
    · rfl
  have hesc : ∀ s, json_append_escaped w s = w := by
    intro s; simp [json_append_escaped, h]
  cases op <;>
    simp [applyOp, sds_json_start_object, sds_json_end_object, sds_json_add_string,
      sds_json_add_num, sds_json_add_bool, hcm, happ, hch, hesc]

/-! ### Output growth of the writer

When no error occurs the writer appends text on the right, so every chunk
written earlier is preserved in the final message.  These lemmas support the
claims about published payload contents. -/

theorem take_set_of_le {α : Type} (x : α) :
    ∀ (l : List α) (n i : Nat), n ≤ i → (l.set i x).take n = l.take n := by
  intro l
  induction l with
  | nil => intro n i _; rfl
  | cons a l ih =>
    intro n i h
    cases n with
    | zero => rfl
    | succ n =>
      cases i with
      | zero => omega
      | succ i => simp [List.set, List.take, ih n i (by omega)]

theorem take_succ_set {α : Type} (x : α) :
    ∀ (l : List α) (i : Nat), i < l.length → (l.set i x).take (i + 1) = l.take i ++ [x] := by
  intro l
  induction l with
  | nil => intro i h; simp at h
  | cons a l ih =>
    intro i h
    cases i with
    | zero => rfl
    | succ i => simp [List.set, List.take, ih i (by simpa using h)]

theorem take_bufWriteAt (s : List Char) :
    ∀ (l : List Char) (i : Nat), i + s.length ≤ l.length →
      (bufWriteAt l i s).take (i + s.length) = l.take i ++ s := by
  induction s with
  | nil => intro l i _; simp [bufWriteAt]
  | cons c cs ih =>
    intro l i h
    have hi : i < l.length := by simp at h; omega
    have h1 : (i + 1) + cs.length ≤ (l.set i c).length := by simp; simp at h; omega
    have h2 := ih (l.set i c) (i + 1) h1
    have h3 : i + (c :: cs).length = (i + 1) + cs.length := by simp; omega
    rw [show bufWriteAt l i (c :: cs) = bufWriteAt (l.set i c) (i + 1) cs from rfl, h3, h2,
      take_succ_set c l i hi]
    simp

theorem writerOutput_writeRaw {w : SdsJsonWriter} {s : List Char}
    (hlen : w.buf.length = w.size) (hfit : w.pos + s.length < w.size) :
    writerOutput (writeRaw w s) = writerOutput w ++ s := by
  unfold writerOutput writeRaw
  simp only
  rw [take_set_of_le nulChar _ (w.pos + s.length) (w.pos + s.length) (le_refl _),
    take_bufWriteAt s w.buf w.pos (by omega)]

theorem json_append_success {w : SdsJsonWriter} {s : List Char}
    (he : (json_append w s).error = false) :
    w.error = false ∧ w.pos + s.length < w.size ∧ json_append w s = writeRaw w s := by
  unfold json_append at he ⊢
  by_cases h1 : w.error = true
  · rw [if_pos h1] at he
    exact absurd he (by simp [h1])
  · have h1' : w.error = false := by simpa using h1
    rw [if_neg (by simp [h1'])] at he
    by_cases h2 : w.size ≤ w.pos + s.length
    · rw [if_pos h2] at he
      exact absurd he (by simp)
    · refine ⟨h1', by omega, ?_⟩
      rw [if_neg (by simp [h1']), if_neg h2]

theorem json_append_char_success {w : SdsJsonWriter} {c : Char}
    (he : (json_append_char w c).error = false) :
    w.error = false ∧ w.pos + 1 < w.size ∧ json_append_char w c = writeRaw w [c] := by
  unfold json_append_char at he ⊢
  by_cases h1 : w.error = true
  · rw [if_pos h1] at he
    exact absurd he (by simp [h1])
  · have h1' : w.error = false := by simpa using h1
    rw [if_neg (by simp [h1'])] at he
    by_cases h2 : w.size ≤ w.pos + 1
    · rw [if_pos h2] at he
      exact absurd he (by simp)
    · refine ⟨h1', by omega, ?_⟩
      rw [if_neg (by simp [h1']), if_neg h2]

theorem json_append_output {w : SdsJsonWriter} {s : List Char}
    (hw : w.buf.length = w.size) (he : (json_append w s).error = false) :
    writerOutput (json_append w s) = writerOutput w ++ s := by
  obtain ⟨_, hfit, heq⟩ := json_append_success he
  rw [heq, writerOutput_writeRaw hw hfit]

theorem json_append_char_output {w : SdsJsonWriter} {c : Char}
    (hw : w.buf.length = w.size) (he : (json_append_char w c).error = false) :
    writerOutput (json_append_char w c) = writerOutput w ++ [c] := by
  obtain ⟨_, hfit, heq⟩ := json_append_char_success he
  rw [heq, writerOutput_writeRaw hw (by simpa using hfit)]

theorem json_append_escaped_go_error_sticky (s : List Char) :
    ∀ {w : SdsJsonWriter}, w.error = true → (json_append_escaped_go w s).error = true := by
  induction s with
  | nil => intro w h; exact h
  | cons c cs ih =>
    intro w h
    unfold json_append_escaped_go
    split
    · split
      · rfl
      · exact ih (by simp [writeRaw, h])
    · split
      · split
        · rfl
        · exact ih (by simp [writeRaw, h])
      · exact ih (by simp [json_append_char, h])

theorem escape2_length {c : Char} {e : List Char} (heq : escape2 c = some e) :
    e.length = 2 := by
  unfold escape2 at heq
  repeat' split at heq
  all_goals first
  | (cases heq; rfl)
  | exact Option.noConfusion heq

theorem json_append_escaped_go_output_mono (s : List Char) :
    ∀ {w : SdsJsonWriter}, WriterInv w → (json_append_escaped_go w s).error = false →
      ∃ t, writerOutput (json_append_escaped_go w s) = writerOutput w ++ t := by
  induction s with
  | nil => intro w _ _; exact ⟨[], by simp [json_append_escaped_go]⟩
  | cons c cs ih =>
    intro w hw he
    rw [show json_append_escaped_go w (c :: cs)
      = (match escape2 c with
        | some e =>
          if w.size ≤ w.pos + 2 then { w with error := true }
          else json_append_escaped_go (writeRaw w e) cs
        | none =>
          if c.toNat < 0x20 then
            if w.size ≤ w.pos + 6 then { w with error := true }
            else json_append_escaped_go (writeRaw w (uEscape c)) cs
          else json_append_escaped_go (json_append_char w c) cs) from rfl] at he ⊢
    cases heq : escape2 c with
    | some e =>
      simp only [heq] at he ⊢
      by_cases hfit : w.size ≤ w.pos + 2
      · rw [if_pos hfit] at he
        exact absurd he (by simp)
      · rw [if_neg hfit] at he ⊢
        have he2 : e.length = 2 := escape2_length heq
        have hfit' : w.pos + e.length < w.size := by omega
        obtain ⟨t, ht⟩ := ih (writeRaw_inv hw hfit') he
        exact ⟨e ++ t, by rw [ht, writerOutput_writeRaw hw.1 hfit']; simp⟩
    | none =>
      simp only [heq] at he ⊢
      by_cases hctl : c.toNat < 0x20
      · rw [if_pos hctl] at he ⊢
        by_cases hfit : w.size ≤ w.pos + 6
        · rw [if_pos hfit] at he
          exact absurd he (by simp)
        · rw [if_neg hfit] at he ⊢
          have hfit' : w.pos + (uEscape c).length < w.size := by
            simp only [uEscape, List.length_cons, List.length_nil]
            omega
          obtain ⟨t, ht⟩ := ih (writeRaw_inv hw hfit') he
          exact ⟨uEscape c ++ t, by rw [ht, writerOutput_writeRaw hw.1 hfit']; simp⟩
      · rw [if_neg hctl] at he ⊢
        cases hce : (json_append_char w c).error with
        | true =>
          exact absurd (json_append_escaped_go_error_sticky cs hce) (by simp [he])
        | false =>
          obtain ⟨t, ht⟩ := ih (json_append_char_inv c hw) he
          exact ⟨[c] ++ t, by rw [ht, json_append_char_output hw.1 hce]; simp⟩

/-- A character the escape loop copies verbatim: no two-char escape and not a
control character. -/
def plainChar (c : Char) : Bool := (escape2 c).isNone && !(c.toNat < 0x20)

theorem json_append_escaped_go_output_plain (s : List Char)
    (hs : ∀ c ∈ s, plainChar c = true) :
    ∀ {w : SdsJsonWriter}, WriterInv w → (json_append_escaped_go w s).error = false →
      writerOutput (json_append_escaped_go w s) = writerOutput w ++ s := by
  induction s with
  | nil => intro w _ _; simp [json_append_escaped_go]
  | cons c cs ih =>
    intro w hw he
    have hc := hs c (by simp)
    have hnone : escape2 c = none := by
      simp only [plainChar, Bool.and_eq_true, Option.isNone_iff_eq_none] at hc
      exact hc.1
    have hctl : ¬c.toNat < 0x20 := by
      simp only [plainChar, Bool.and_eq_true, Bool.not_eq_true'] at hc
      simpa using hc.2
    have hstep : json_append_escaped_go w (c :: cs)
        = json_append_escaped_go (json_append_char w c) cs := by
      rw [show json_append_escaped_go w (c :: cs)
        = (match escape2 c with
          | some e =>
            if w.size ≤ w.pos + 2 then { w with error := true }
            else json_append_escaped_go (writeRaw w e) cs
          | none =>
            if c.toNat < 0x20 then
              if w.size ≤ w.pos + 6 then { w with error := true }
              else json_append_escaped_go (writeRaw w (uEscape c)) cs
            else json_append_escaped_go (json_append_char w c) cs) from rfl]
      simp only [hnone]
      rw [if_neg hctl]
    rw [hstep] at he ⊢
    cases hce : (json_append_char w c).error with
    | true => exact absurd (json_append_escaped_go_error_sticky cs hce) (by simp [he])
    | false =>
      rw [ih (fun x hx => hs x (by simp [hx])) (json_append_char_inv c hw) he,
        json_append_char_output hw.1 hce]
      simp

theorem json_append_escaped_error_back {w : SdsJsonWriter} {s : List Char}
    (he : (json_append_escaped w s).error = false) : w.error = false := by
  unfold json_append_escaped at he
  by_cases h : w.error = true
  · rw [if_pos h] at he
    exact absurd he (by simp [h])
  · simpa using h

theorem commaMaybe_error_back {w : SdsJsonWriter}
    (he : (commaMaybe w).error = false) : w.error = false := by
  unfold commaMaybe at he
  by_cases h : needs_comma w
  · rw [if_pos h] at he
    exact (json_append_char_success he).1
  · rwa [if_neg h] at he

theorem commaMaybe_output_mono {w : SdsJsonWriter} (hw : WriterInv w)
    (he : (commaMaybe w).error = false) :
    ∃ t, writerOutput (commaMaybe w) = writerOutput w ++ t ∧ (t = [] ∨ t = [',']) := by
  unfold commaMaybe at he ⊢
  by_cases h : needs_comma w
  · rw [if_pos h] at he ⊢
    exact ⟨[','], json_append_char_output hw.1 he, Or.inr rfl⟩
  · rw [if_neg h]
    exact ⟨[], by simp, Or.inl rfl⟩

/-- The text appended by a successful `sds_json_add_bool`: an optional comma,
then the quoted key, a colon, and the boolean literal. -/
theorem sds_json_add_bool_output {w : SdsJsonWriter} {key : List Char} {b : Bool}
    (hw : WriterInv w) (he : (sds_json_add_bool w key b).error = false) :
    ∃ t, writerOutput (sds_json_add_bool w key b)
      = writerOutput w ++ t ++ ['"'] ++ key ++ ['"', ':']
          ++ (if b then "true".data else "false".data) := by
  unfold sds_json_add_bool at he ⊢
  obtain ⟨he4, _, _⟩ := json_append_success he
  obtain ⟨he3, _, _⟩ := json_append_success he4
  obtain ⟨he2, _, _⟩ := json_append_success he3
  have he1 := (json_append_char_success he2).1
  have hw1 := commaMaybe_inv hw
  have hw2 := json_append_char_inv (w := commaMaybe w) '"' hw1
  have hw3 := json_append_inv (w := json_append_char (commaMaybe w) '"') key hw2
  have hw4 := json_append_inv (w := json_append (json_append_char (commaMaybe w) '"') key)
    ['"', ':'] hw3
  obtain ⟨t, ht, _⟩ := commaMaybe_output_mono hw he1
  refine ⟨t, ?_⟩
  rw [json_append_output hw4.1 he, json_append_output hw3.1 he4,
    json_append_output hw2.1 he3, json_append_char_output hw1.1 he2, ht]

/-- The text appended by a successful `sds_json_add_string` whose value
contains only plain characters: an optional comma, the quoted key, a colon,
and the quoted value verbatim. -/
theorem sds_json_add_string_output {w : SdsJsonWriter} {key value : List Char}
    (hval : ∀ c ∈ value, plainChar c = true)
    (hw : WriterInv w) (he : (sds_json_add_string w key value).error = false) :
    ∃ t, writerOutput (sds_json_add_string w key value)
      = writerOutput w ++ t ++ ['"'] ++ key ++ ['"', ':', '"'] ++ value ++ ['"'] := by
  unfold sds_json_add_string at he ⊢
  obtain ⟨he5, _, _⟩ := json_append_char_success he
  have he4 := json_append_escaped_error_back he5
  obtain ⟨he3, _, _⟩ := json_append_success he4
  obtain ⟨he2, _, _⟩ := json_append_success he3
  have he1 := (json_append_char_success he2).1
  have hw1 := commaMaybe_inv hw
  have hw2 := json_append_char_inv (w := commaMaybe w) '"' hw1
  have hw3 := json_append_inv (w := json_append_char (commaMaybe w) '"') key hw2
  have hw4 := json_append_inv (w := json_append (json_append_char (commaMaybe w) '"') key)
    ['"', ':', '"'] hw3
  have hw5 := json_append_escaped_inv (w := json_append (json_append
    (json_append_char (commaMaybe w) '"') key) ['"', ':', '"']) value hw4
  have hesc : json_append_escaped (json_append (json_append
      (json_append_char (commaMaybe w) '"') key) ['"', ':', '"']) value
    = json_append_escaped_go (json_append (json_append
      (json_append_char (commaMaybe w) '"') key) ['"', ':', '"']) value := by
    unfold json_append_escaped
    rw [if_neg (by simp [he4])]
  obtain ⟨t, ht, _⟩ := commaMaybe_output_mono hw he1
  refine ⟨t, ?_⟩
  rw [json_append_char_output hw5.1 he]
  rw [hesc] at he5 ⊢
  rw [json_append_escaped_go_output_plain value hval hw4 he5,
    json_append_output hw3.1 he4, json_append_output hw2.1 he3,
    json_append_char_output hw1.1 he2, ht]

theorem applyOps_error_id {w : SdsJsonWriter} (ops : List WriterOp)
    (h : w.error = true) : applyOps w ops = w := by
  induction ops with
  | nil => rfl
  | cons op rest ih =>
    show applyOps (applyOp w op) rest = w
    rw [applyOp_error_id w op h, ih]

theorem applyOp_output_mono {w : SdsJsonWriter} (op : WriterOp) (hw : WriterInv w)
    (he : (applyOp w op).error = false) :
    ∃ t, writerOutput (applyOp w op) = writerOutput w ++ t := by
  cases op with
  | startObject =>
    exact ⟨_, json_append_char_output hw.1 he⟩
  | endObject =>
    exact ⟨_, json_append_char_output hw.1 he⟩
  | addBool k b =>
    replace he : (sds_json_add_bool w k b).error = false := he
    show ∃ t, writerOutput (sds_json_add_bool w k b) = writerOutput w ++ t
    obtain ⟨t, ht⟩ := sds_json_add_bool_output hw he
    refine ⟨t ++ ['"'] ++ k ++ ['"', ':'] ++ (if b then "true".data else "false".data), ?_⟩
    rw [ht]
    simp
  | addNum k n =>
    replace he : (sds_json_add_num w k n).error = false := he
    show ∃ t, writerOutput (sds_json_add_num w k n) = writerOutput w ++ t
    unfold sds_json_add_num at he ⊢
    obtain ⟨he4, _, _⟩ := json_append_success he
    obtain ⟨he3, _, _⟩ := json_append_success he4
    obtain ⟨he2, _, _⟩ := json_append_success he3
    have he1 := (json_append_char_success he2).1
    have hw1 := commaMaybe_inv hw
    have hw2 := json_append_char_inv (w := commaMaybe w) '"' hw1
    have hw3 := json_append_inv (w := json_append_char (commaMaybe w) '"') k hw2
    have hw4 := json_append_inv (w := json_append (json_append_char (commaMaybe w) '"') k)
      ['"', ':'] hw3
    obtain ⟨t, ht, _⟩ := commaMaybe_output_mono hw he1
    refine ⟨t ++ ['"'] ++ k ++ ['"', ':'] ++ n, ?_⟩
    rw [json_append_output hw4.1 he, json_append_output hw3.1 he4,
      json_append_output hw2.1 he3, json_append_char_output hw1.1 he2, ht]
    simp
  | addString k v =>
    replace he : (json_append_char (json_append_escaped (json_append (json_append
      (json_append_char (commaMaybe w) '"') k) ['"', ':', '"']) v) '"').error = false := he
    show ∃ t, writerOutput (json_append_char (json_append_escaped (json_append (json_append
      (json_append_char (commaMaybe w) '"') k) ['"', ':', '"']) v) '"') = writerOutput w ++ t
    obtain ⟨he5, _, _⟩ := json_append_char_success he
    have he4 := json_append_escaped_error_back he5
    obtain ⟨he3, _, _⟩ := json_append_success he4
    obtain ⟨he2, _, _⟩ := json_append_success he3
    have he1 := (json_append_char_success he2).1
    have hw1 := commaMaybe_inv hw
    have hw2 := json_append_char_inv (w := commaMaybe w) '"' hw1
    have hw3 := json_append_inv (w := json_append_char (commaMaybe w) '"') k hw2
    have hw4 := json_append_inv (w := json_append (json_append_char (commaMaybe w) '"') k)
      ['"', ':', '"'] hw3
    have hesc : json_append_escaped (json_append (json_append
        (json_append_char (commaMaybe w) '"') k) ['"', ':', '"']) v
      = json_append_escaped_go (json_append (json_append
        (json_append_char (commaMaybe w) '"') k) ['"', ':', '"']) v := by
      unfold json_append_escaped
      rw [if_neg (by simp [he4])]
    rw [hesc] at he5 ⊢
    have hw5 := json_append_escaped_go_inv v hw4
    obtain ⟨tv, htv⟩ := json_append_escaped_go_output_mono v hw4 he5
    obtain ⟨t, ht, _⟩ := commaMaybe_output_mono hw he1
    refine ⟨t ++ ['"'] ++ k ++ ['"', ':', '"'] ++ tv ++ ['"'], ?_⟩
    rw [hesc] at he
    rw [json_append_char_output hw5.1 he, htv,
      json_append_output hw3.1 he4,
      json_append_output hw2.1 he3, json_append_char_output hw1.1 he2, ht]
    simp

theorem applyOps_output_mono (ops : List WriterOp) :
    ∀ {w : SdsJsonWriter}, WriterInv w → (applyOps w ops).error = false →
      ∃ t, writerOutput (applyOps w ops) = writerOutput w ++ t := by
  induction ops with
  | nil => intro w _ _; exact ⟨[], by simp [applyOps]⟩
  | cons op rest ih =>
    intro w hw he
    have hstep : applyOps w (op :: rest) = applyOps (applyOp w op) rest := rfl
    rw [hstep] at he ⊢
    cases hce : (applyOp w op).error with
    | true =>
      rw [applyOps_error_id rest hce] at he
      exact absurd he (by simp [hce])
    | false =>
      obtain ⟨t2, ht2⟩ := ih (applyOp_inv op hw) he
      obtain ⟨t1, ht1⟩ := applyOp_output_mono op hw hce
      exact ⟨t1 ++ t2, by rw [ht2, ht1]; simp⟩

/-- C9 (amended to buffers of capacity ≥ 1): for every sequence of JSON
writer operations on a writer initialized over a non-empty buffer, the write
position stays strictly below the capacity, the buffer never grows or
shrinks, and the byte at the write position is the NUL terminator; moreover,
once the error flag is set, every subsequent operation leaves the buffer
contents, the position, and the error flag unchanged. -/
theorem writer_bounded_and_error_latched (buffer : List Char) (hbuf : 1 ≤ buffer.length)
    (ops : List WriterOp) :
    ((applyOps (sds_json_writer_init buffer buffer.length) ops).pos
        < (applyOps (sds_json_writer_init buffer buffer.length) ops).size ∧
      (applyOps (sds_json_writer_init buffer buffer.length) ops).size = buffer.length ∧
      (applyOps (sds_json_writer_init buffer buffer.length) ops).buf.length = buffer.length ∧
      (applyOps (sds_json_writer_init buffer buffer.length) ops).buf[(applyOps
        (sds_json_writer_init buffer buffer.length) ops).pos]? = some nulChar) ∧
    ∀ (w : SdsJsonWriter) (op : WriterOp), w.error = true → applyOp w op = w := by
  have hsize : ∀ (w : SdsJsonWriter) (l : List WriterOp), (applyOps w l).size = w.size := by
    intro w l
    induction l generalizing w with
    | nil => rfl
    | cons op rest ih =>
      have hop : (applyOp w op).size = w.size := by
        have h1 : ∀ (v : SdsJsonWriter) s, (json_append v s).size = v.size := by
          intro v s; unfold json_append writeRaw; repeat' split
          all_goals rfl
        have h2 : ∀ (v : SdsJsonWriter) c, (json_append_char v c).size = v.size := by
          intro v c; unfold json_append_char writeRaw; repeat' split
          all_goals rfl
        have h3 : ∀ s (v : SdsJsonWriter), (json_append_escaped_go v s).size = v.size := by
          intro s
          induction s with
          | nil => intro v; rfl
          | cons c cs ihs =>
            intro v
            unfold json_append_escaped_go
            repeat' split
            all_goals simp only [ihs, h2]
            all_goals rfl
        have h4 : ∀ (v : SdsJsonWriter), (commaMaybe v).size = v.size := by
          intro v; unfold commaMaybe; split
          · exact h2 v ','
          · rfl
        have h5 : ∀ (v : SdsJsonWriter) s, (json_append_escaped v s).size = v.size := by
          intro v s; unfold json_append_escaped; split
          · rfl
          · exact h3 s v
        cases op <;>
          simp only [applyOp, sds_json_start_object, sds_json_end_object,
            sds_json_add_string, sds_json_add_num, sds_json_add_bool, h1, h2, h3, h4, h5]
      show (applyOps (applyOp w op) rest).size = w.size
      rw [ih, hop]
  have hinv := applyOps_inv ops (writer_init_inv rfl hbuf)
  obtain ⟨hlen, hpos, hnul⟩ := hinv
  have hsz : (applyOps (sds_json_writer_init buffer buffer.length) ops).size = buffer.length := by
    rw [hsize]; rfl
  exact ⟨⟨hpos, hsz, by rw [hlen, hsz], hnul⟩, applyOp_error_id⟩

/-- Witness for C9: a concrete 10-byte buffer and a concrete operation
sequence, with the bound and termination evaluated. -/
theorem writer_bounded_and_error_latched_witness :
    (applyOps (sds_json_writer_init "0123456789".data "0123456789".data.length)
        [WriterOp.startObject, WriterOp.addBool "online".data true, WriterOp.endObject]).pos
      < (applyOps (sds_json_writer_init "0123456789".data "0123456789".data.length)
        [WriterOp.startObject, WriterOp.addBool "online".data true, WriterOp.endObject]).size :=
  ((writer_bounded_and_error_latched "0123456789".data (by decide)
    [WriterOp.startObject, WriterOp.addBool "online".data true, WriterOp.endObject]).1).1

/-- Counterexample to C9 as stated (for every N): with a zero-capacity buffer
(`N = 0`), `sds_json_writer_init` leaves the position equal to `N` — so the
position does reach `N` — and the buffer holds no NUL terminator at the
position. -/
theorem writer_zero_capacity_counterexample :
    (applyOps (sds_json_writer_init [] 0) [WriterOp.startObject]).size ≤
        (applyOps (sds_json_writer_init [] 0) [WriterOp.startObject]).pos ∧
      (applyOps (sds_json_writer_init [] 0) [WriterOp.startObject]).buf[(applyOps
        (sds_json_writer_init [] 0) [WriterOp.startObject]).pos]? = none := by
  decide

/-! ## Core model (sds_core.c): table contexts, sync scheduler, inbound dispatch -/

/-- `SdsRole` (sds.h:106). -/
inductive SdsRole where
  | owner
  | device
deriving Repr, DecidableEq

/-- The `SdsError` codes returned or raised through `notify_error` by the
embedded functions (sds_error.h). -/
inductive SdsError where
  | bufferFull
  | mqttDisconnected
  | invalidTable
  | tableNotFound
  | tableAlreadyRegistered
  | maxTablesReached
  | sectionTooLarge
deriving Repr, DecidableEq

/-- `uint32_t` clock difference `now - prev` with C unsigned wrap-around
semantics, as used for every timer comparison in sds_core.c. -/
def elapsed32 (now prev : Nat) : Nat :=
  (now % 2 ^ 32 + 2 ^ 32 - prev % 2 ^ 32) % 2 ^ 32

theorem elapsed32_eq_sub {now prev : Nat} (h1 : prev ≤ now) (h2 : now < 2 ^ 32) :
    elapsed32 now prev = now - prev := by
  unfold elapsed32
  have hp : prev % 2 ^ 32 = prev := Nat.mod_eq_of_lt (by omega)
  have hn : now % 2 ^ 32 = now := Nat.mod_eq_of_lt h2
  rw [hp, hn, show now + 2 ^ 32 - prev = (now - prev) + 2 ^ 32 by omega,
    Nat.add_mod_right]
  exact Nat.mod_eq_of_lt (by omega)

/-- `SDS_MAX_NODE_ID_LEN` (sds.h:69). -/
def SDS_MAX_NODE_ID_LEN : Nat := 32

/-- `SDS_MSG_BUFFER_SIZE` (sds.h:88). -/
def SDS_MSG_BUFFER_SIZE : Nat := 2048

/-- `strncpy(dst, node_id, SDS_MAX_NODE_ID_LEN - 1)` followed by forced NUL
termination: keep at most the first 31 characters. -/
def truncateNodeId (s : String) : String := s.take (SDS_MAX_NODE_ID_LEN - 1)

/-- One owner-side status slot.  In the C source the slot lives in caller
memory behind `status_slots_offset` with layout `node_id[32], valid, online,
last_seen_ms, ..., status` (`find_or_alloc_status_slot`, sds_core.c:1071);
the pointer-plus-offset layout becomes a record, and the user-defined status
payload region becomes raw bytes. -/
structure StatusSlot where
  nodeId : String
  valid : Bool
  online : Bool
  lastSeenMs : Nat
  status : List Nat
deriving Repr, DecidableEq

/-- The all-zero slot of a zero-initialized owner table. -/
def emptySlot : StatusSlot :=
  { nodeId := "", valid := false, online := false, lastSeenMs := 0, status := [] }

/-- `SdsTableContext` (sds_core.c:32).  The section bytes live in the
caller's table struct behind `config_offset`/`state_offset`/`status_offset`;
the record holds those byte regions directly, with the section size being the
length of the byte list.  Generated serializers are sequences of writer calls
computed from the section bytes (`SdsSerializeFunc`); generated deserializers
map the raw payload text and previous section bytes to the new section bytes
(`SdsDeserializeFunc`), writing fields in place so the length is preserved.
User callbacks are opaque function-pointer handles (`Option Nat`);
`statusSlotsConfigured` models `status_slots_offset > 0` and
`statusCountConfigured` models `status_count_offset > 0`. -/
structure SdsTableContext where
  active : Bool
  tableType : String
  role : SdsRole
  syncIntervalMs : Nat
  lastSyncMs : Nat
  livenessIntervalMs : Nat
  lastPublishMs : Nat
  config : List Nat
  state : List Nat
  status : List Nat
  shadowConfig : List Nat
  shadowState : List Nat
  shadowStatus : List Nat
  serializeConfig : Option (List Nat → List WriterOp)
  deserializeConfig : Option (List Char → List Nat → List Nat)
  serializeState : Option (List Nat → List WriterOp)
  deserializeState : Option (List Char → List Nat → List Nat)
  serializeStatus : Option (List Nat → List WriterOp)
  deserializeStatus : Option (List Char → List Nat → List Nat)
  configCallback : Option Nat
  stateCallback : Option Nat
  statusCallback : Option Nat
  statusSlotsConfigured : Bool
  statusSlots : List StatusSlot
  statusCountConfigured : Bool
  statusCount : Nat

/-- A message handed to `sds_platform_mqtt_publish`. -/
structure PubMsg where
  topic : String
  payload : List Char
  retained : Bool
deriving Repr, DecidableEq

/-- `snprintf(num, sizeof(num), "%u", value)`: decimal digits of a
`uint32_t`. -/
def formatUint (n : Nat) : List Char := Nat.toDigits 10 (n % 2 ^ 32)

/-- Render a message into the stack buffer `char buffer[SDS_MSG_BUFFER_SIZE]`
after `sds_json_writer_init(&w, buffer, sizeof(buffer))`. -/
def renderMsg (ops : List WriterOp) : SdsJsonWriter :=
  applyOps
    (sds_json_writer_init (List.replicate SDS_MSG_BUFFER_SIZE nulChar) SDS_MSG_BUFFER_SIZE)
    ops

/-- The writer calls emitted for a config message (sync_table,
sds_core.c:923-928): `{` `ts` `from` user-fields `}`. -/
def configMsgOps (now : Nat) (nodeId : String) (userOps : List WriterOp) : List WriterOp :=
  [WriterOp.startObject, WriterOp.addNum "ts".data (formatUint now),
    WriterOp.addString "from".data nodeId.data] ++ userOps ++ [WriterOp.endObject]

/-- The writer calls emitted for a state message (sync_table,
sds_core.c:951-956): `{` `ts` `node` user-fields `}`. -/
def stateMsgOps (now : Nat) (nodeId : String) (userOps : List WriterOp) : List WriterOp :=
  [WriterOp.startObject, WriterOp.addNum "ts".data (formatUint now),
    WriterOp.addString "node".data nodeId.data] ++ userOps ++ [WriterOp.endObject]

/-- The writer calls emitted for a status message (sync_table,
sds_core.c:982-988): `{` `ts` `online:true` `sv` user-fields `}`. -/
def statusMsgOps (now : Nat) (schemaVersion : String) (userOps : List WriterOp) :
    List WriterOp :=
  [WriterOp.startObject, WriterOp.addNum "ts".data (formatUint now),
    WriterOp.addBool "online".data true, WriterOp.addString "sv".data schemaVersion.data] ++
    userOps ++ [WriterOp.endObject]

/-- Owner config branch of `sync_table` (sds_core.c:916-943).  Returns the
updated context, the message handed to the transport (if any), and the errors
reported through `notify_error`. -/
def syncConfigStep (nodeId : String) (now : Nat) (ctx : SdsTableContext) :
    SdsTableContext × Option PubMsg × List SdsError :=
  match ctx.role, ctx.serializeConfig with
  | SdsRole.owner, some ser =>
    if ctx.config.length ≠ 0 then
      if ctx.config ≠ ctx.shadowConfig then
        let w := renderMsg (configMsgOps now nodeId (ser ctx.config))
        if w.error then (ctx, none, [SdsError.bufferFull])
        else ({ ctx with shadowConfig := ctx.config },
          some { topic := "sds/" ++ ctx.tableType ++ "/config",
                 payload := writerOutput w, retained := true }, [])
      else (ctx, none, [])
    else (ctx, none, [])
  | _, _ => (ctx, none, [])

/-- State branch of `sync_table`, all roles (sds_core.c:946-970). -/
def syncStateStep (nodeId : String) (now : Nat) (ctx : SdsTableContext) :
    SdsTableContext × Option PubMsg × List SdsError :=
  match ctx.serializeState with
  | some ser =>
    if ctx.state.length ≠ 0 then
      if ctx.state ≠ ctx.shadowState then
        let w := renderMsg (stateMsgOps now nodeId (ser ctx.state))
        if w.error then (ctx, none, [SdsError.bufferFull])
        else ({ ctx with shadowState := ctx.state },
          some { topic := "sds/" ++ ctx.tableType ++ "/state",
                 payload := writerOutput w, retained := false }, [])
      else (ctx, none, [])
    else (ctx, none, [])
  | none => (ctx, none, [])

/-- Device status branch of `sync_table` (sds_core.c:973-1007): publish when
the status bytes changed or the liveness timer expired. -/
def syncStatusStep (nodeId schemaVersion : String) (now : Nat) (ctx : SdsTableContext) :
    SdsTableContext × Option PubMsg × List SdsError :=
  match ctx.role, ctx.serializeStatus with
  | SdsRole.device, some ser =>
    if ctx.status.length ≠ 0 then
      if ctx.status ≠ ctx.shadowStatus ∨
          (0 < ctx.livenessIntervalMs ∧
            ctx.livenessIntervalMs ≤ elapsed32 now ctx.lastPublishMs) then
        let w := renderMsg (statusMsgOps now schemaVersion (ser ctx.status))
        if w.error then (ctx, none, [SdsError.bufferFull])
        else ({ ctx with shadowStatus := ctx.status },
          some { topic := "sds/" ++ ctx.tableType ++ "/status/" ++ nodeId,
                 payload := writerOutput w, retained := false }, [])
      else (ctx, none, [])
    else (ctx, none, [])
  | _, _ => (ctx, none, [])

/-- Result of one `sync_table` call. -/
structure SyncResult where
  ctx : SdsTableContext
  cfgMsg : Option PubMsg
  stMsg : Option PubMsg
  statusMsg : Option PubMsg
  errs : List SdsError

/-- `sync_table` (sds_core.c:909-1013): config, then state, then status; the
shadow of a section is copied only on that section's successful
serialization, and `last_publish_ms` is set to `now` when anything was
published.  `pubOk` is the boolean returned by `sds_platform_mqtt_publish`;
the C code discards it, so the parameter is unused. -/
def sync_table (nodeId schemaVersion : String) (now : Nat) (pubOk : Bool)
    (ctx : SdsTableContext) : SyncResult :=
  let r1 := syncConfigStep nodeId now ctx
  let r2 := syncStateStep nodeId now r1.1
  let r3 := syncStatusStep nodeId schemaVersion now r2.1
  let published := r1.2.1.isSome || r2.2.1.isSome || r3.2.1.isSome
  let c4 := if published then { r3.1 with lastPublishMs := now } else r3.1
  { ctx := c4, cfgMsg := r1.2.1, stMsg := r2.2.1, statusMsg := r3.2.1,
    errs := r1.2.2 ++ r2.2.2 ++ r3.2.2 }

/-- `handle_config_message` (sds_core.c:1015-1036).  The payload is the raw
message text; the boolean reports whether the user config callback fired. -/
def handle_config_message (ctx : SdsTableContext) (payload : List Char) :
    SdsTableContext × Bool :=
  if ctx.role ≠ SdsRole.device then (ctx, false)
  else
    match ctx.deserializeConfig with
    | none => (ctx, false)
    | some deser =>
      let config' := deser payload ctx.config
      let ctx' := { ctx with
        config := config',
        shadowConfig := if ctx.config.length ≠ 0 then config' else ctx.shadowConfig }
      (ctx', ctx'.configCallback.isSome)

/-- `handle_state_message` (sds_core.c:1038-1062): owners ignore their own
state messages, otherwise deserialize into the merged state section and copy
the shadow. -/
def handle_state_message (nodeId : String) (ctx : SdsTableContext)
    (fromNode : String) (payload : List Char) : SdsTableContext × Bool :=
  if ctx.role ≠ SdsRole.owner then (ctx, false)
  else
    match ctx.deserializeState with
    | none => (ctx, false)
    | some deser =>
      if fromNode = nodeId then (ctx, false)
      else
        let state' := deser payload ctx.state
        let ctx' := { ctx with
          state := state',
          shadowState := if ctx.state.length ≠ 0 then state' else ctx.shadowState }
        (ctx', ctx'.stateCallback.isSome)

/-- A linear scan over an array returning the index of the first element
satisfying the predicate (the `for` loops of `find_or_alloc_status_slot`,
`find_table` and `alloc_table_slot`). -/
def findSlot {α : Type} (p : α → Bool) : List α → Option Nat
  | [] => none
  | s :: rest => if p s then some 0 else (findSlot p rest).map (· + 1)

/-- `find_or_alloc_status_slot` (sds_core.c:1071-1122): linear scan for a
valid slot with the node id, else first free slot initialized with the
(possibly `strncpy`-truncated) node id, `valid=true`, `online=true`,
`last_seen=now`, incrementing the `uint8_t` status count when configured.
Returns the slot index together with the updated context. -/
def find_or_alloc_status_slot (now : Nat) (ctx : SdsTableContext) (nodeId : String) :
    Option (Nat × SdsTableContext) :=
  if ¬ctx.statusSlotsConfigured then none
  else
    match findSlot (fun s => s.valid && s.nodeId == nodeId) ctx.statusSlots with
    | some i => some (i, ctx)
    | none =>
      match findSlot (fun s => !s.valid) ctx.statusSlots with
      | some i =>
        let old := ctx.statusSlots.getD i emptySlot
        let slot := { old with
          nodeId := truncateNodeId nodeId, valid := true, online := true, lastSeenMs := now }
        some (i, { ctx with
          statusSlots := ctx.statusSlots.set i slot,
          statusCount :=
            if ctx.statusCountConfigured then (ctx.statusCount + 1) % 256
            else ctx.statusCount })
      | none => none

/-- An inbound status message as seen by `handle_status_message`.  `raw` is
the payload text; `svField` and `onlineField` abstract the JSON-reader calls
`sds_json_get_string_field(r, "sv", ...)` and
`sds_json_get_bool_field(r, "online", ...)`: `none` means the key was absent
or unparsable, in which case the C code keeps the prior value (`""`
resp. `true`). -/
structure InStatusMsg where
  raw : List Char
  svField : Option String
  onlineField : Option Bool

/-- The slot mutation `handle_status_message` performs once a slot was found
or allocated (sds_core.c:1170-1192): set `online` (default `true`) and
`last_seen_ms`, and deserialize the payload into the slot's status only when
online. -/
def updSlot (deser : List Char → List Nat → List Nat) (now : Nat) (msg : InStatusMsg)
    (old : StatusSlot) : StatusSlot :=
  let online := msg.onlineField.getD true
  let upd0 := { old with online := online, lastSeenMs := now }
  if online then { upd0 with status := deser msg.raw upd0.status } else upd0

/-- `handle_status_message` (sds_core.c:1124-1197): schema-version gate
(callback decides on a non-empty differing `sv`; without a callback the
message is accepted), then find-or-alloc the slot, update `online` and
`last_seen_ms`, and deserialize the payload into the slot only when online.
The boolean reports whether the user status callback fired. -/
def handle_status_message (schemaVersion : String)
    (mismatchCb : Option (String → String → String → String → Bool))
    (now : Nat) (ctx : SdsTableContext) (fromNode : String) (msg : InStatusMsg) :
    SdsTableContext × Bool :=
  if ctx.role ≠ SdsRole.owner then (ctx, false)
  else
    match ctx.deserializeStatus with
    | none => (ctx, false)
    | some deser =>
      let remoteVersion := msg.svField.getD ""
      let rejected :=
        if remoteVersion ≠ "" ∧ remoteVersion ≠ schemaVersion then
          match mismatchCb with
          | some cb => !(cb ctx.tableType fromNode schemaVersion remoteVersion)
          | none => false
        else false
      if rejected then (ctx, false)
      else
        match find_or_alloc_status_slot now ctx fromNode with
        | none => (ctx, ctx.statusCallback.isSome)
        | some (i, ctx1) =>
          let ctx2 := { ctx1 with
            statusSlots := ctx1.statusSlots.set i
              (updSlot deser now msg (ctx1.statusSlots.getD i emptySlot)) }
          (ctx2, ctx2.statusCallback.isSome)

/-! ### Shape of the three sync branches -/

theorem syncConfigStep_spec (nodeId : String) (now : Nat) (ctx : SdsTableContext) :
    ((syncConfigStep nodeId now ctx).1 = ctx ∧ (syncConfigStep nodeId now ctx).2.1 = none) ∨
    ((syncConfigStep nodeId now ctx).1 = { ctx with shadowConfig := ctx.config } ∧
      (syncConfigStep nodeId now ctx).2.1.isSome) := by
  unfold syncConfigStep
  split
  · rename_i ser heq1 heq2
    by_cases h1 : ctx.config.length ≠ 0
    · by_cases h2 : ctx.config ≠ ctx.shadowConfig
      · simp only [if_pos h1, if_pos h2]
        cases hf : (renderMsg (configMsgOps now nodeId (ser ctx.config))).error with
        | true => simp [hf]
        | false => simp [hf]
      · rw [if_pos h1, if_neg h2]
        simp
    · rw [if_neg h1]
      simp
  · simp

theorem syncStateStep_spec (nodeId : String) (now : Nat) (ctx : SdsTableContext) :
    ((syncStateStep nodeId now ctx).1 = ctx ∧ (syncStateStep nodeId now ctx).2.1 = none) ∨
    ((syncStateStep nodeId now ctx).1 = { ctx with shadowState := ctx.state } ∧
      (syncStateStep nodeId now ctx).2.1.isSome) := by
  unfold syncStateStep
  split
  · rename_i ser heq
    by_cases h1 : ctx.state.length ≠ 0
    · by_cases h2 : ctx.state ≠ ctx.shadowState
      · simp only [if_pos h1, if_pos h2]
        cases hf : (renderMsg (stateMsgOps now nodeId (ser ctx.state))).error with
        | true => simp [hf]
        | false => simp [hf]
      · rw [if_pos h1, if_neg h2]
        simp
    · rw [if_neg h1]
      simp
  · simp

theorem syncStatusStep_spec (nodeId schemaVersion : String) (now : Nat)
    (ctx : SdsTableContext) :
    ((syncStatusStep nodeId schemaVersion now ctx).1 = ctx ∧
      (syncStatusStep nodeId schemaVersion now ctx).2.1 = none) ∨
    ((syncStatusStep nodeId schemaVersion now ctx).1 = { ctx with shadowStatus := ctx.status } ∧
      (syncStatusStep nodeId schemaVersion now ctx).2.1.isSome) := by
  unfold syncStatusStep
  split
  · rename_i ser heq1 heq2
    by_cases h1 : ctx.status.length ≠ 0
    · by_cases h2 : ctx.status ≠ ctx.shadowStatus ∨
        (0 < ctx.livenessIntervalMs ∧
          ctx.livenessIntervalMs ≤ elapsed32 now ctx.lastPublishMs)
      · simp only [if_pos h1, if_pos h2]
        cases hf : (renderMsg (statusMsgOps now schemaVersion (ser ctx.status))).error with
        | true => simp [hf]
        | false => simp [hf]
      · rw [if_pos h1, if_neg h2]
        simp
    · rw [if_neg h1]
      simp
  · simp

theorem syncConfigStep_unchanged (nodeId : String) (now : Nat) (ctx : SdsTableContext)
    (h : ctx.config = ctx.shadowConfig) :
    syncConfigStep nodeId now ctx = (ctx, none, []) := by
  unfold syncConfigStep
  split
  · simp [h]
  · rfl

theorem syncStateStep_unchanged (nodeId : String) (now : Nat) (ctx : SdsTableContext)
    (h : ctx.state = ctx.shadowState) :
    syncStateStep nodeId now ctx = (ctx, none, []) := by
  unfold syncStateStep
  split
  · simp [h]
  · rfl

theorem syncStatusStep_unchanged (nodeId schemaVersion : String) (now : Nat)
    (ctx : SdsTableContext) (hst : ctx.status = ctx.shadowStatus)
    (hlv : ctx.role = SdsRole.owner ∨ ctx.livenessIntervalMs = 0 ∨
      elapsed32 now ctx.lastPublishMs < ctx.livenessIntervalMs) :
    syncStatusStep nodeId schemaVersion now ctx = (ctx, none, []) := by
  unfold syncStatusStep
  split
  · rename_i ser heq1 heq2
    by_cases h1 : ctx.status.length ≠ 0
    · have hc : ¬(ctx.status ≠ ctx.shadowStatus ∨
          (0 < ctx.livenessIntervalMs ∧
            ctx.livenessIntervalMs ≤ elapsed32 now ctx.lastPublishMs)) := by
        push_neg
        refine ⟨hst, fun hl => ?_⟩
        rcases hlv with hlv | hlv | hlv
        · rw [heq1] at hlv
          exact absurd hlv (by simp)
        · omega
        · omega
      rw [if_pos h1, if_neg hc]
    · rw [if_neg h1]
  · rfl

/-- A zero-initialized freshly registered table context, used as the base of
concrete examples; individual fields are overridden per example. -/
def baseCtx : SdsTableContext :=
  { active := true, tableType := "T", role := SdsRole.device, syncIntervalMs := 1000,
    lastSyncMs := 0, livenessIntervalMs := 0, lastPublishMs := 0,
    config := [], state := [], status := [], shadowConfig := [], shadowState := [],
    shadowStatus := [], serializeConfig := none, deserializeConfig := none,
    serializeState := none, deserializeState := none, serializeStatus := none,
    deserializeStatus := none, configCallback := none, stateCallback := none,
    statusCallback := none, statusSlotsConfigured := false, statusSlots := [],
    statusCountConfigured := false, statusCount := 0 }

/-- C2: after every successful outbound publish of a section during a tick,
and after every successful inbound deserialization into a section, the
section's shadow equals the current section bytes. -/
theorem shadow_equals_section_after_sync_and_deserialize
    (nodeId schemaVersion : String) (now : Nat) (pubOk : Bool) (ctx : SdsTableContext)
    (payload : List Char) (fromNode : String) :
    ((sync_table nodeId schemaVersion now pubOk ctx).cfgMsg.isSome →
      (sync_table nodeId schemaVersion now pubOk ctx).ctx.shadowConfig =
        (sync_table nodeId schemaVersion now pubOk ctx).ctx.config) ∧
    ((sync_table nodeId schemaVersion now pubOk ctx).stMsg.isSome →
      (sync_table nodeId schemaVersion now pubOk ctx).ctx.shadowState =
        (sync_table nodeId schemaVersion now pubOk ctx).ctx.state) ∧
    ((sync_table nodeId schemaVersion now pubOk ctx).statusMsg.isSome →
      (sync_table nodeId schemaVersion now pubOk ctx).ctx.shadowStatus =
        (sync_table nodeId schemaVersion now pubOk ctx).ctx.status) ∧
    (ctx.role = SdsRole.device → ctx.deserializeConfig.isSome → ctx.config.length ≠ 0 →
      (handle_config_message ctx payload).1.shadowConfig =
        (handle_config_message ctx payload).1.config) ∧
    (ctx.role = SdsRole.owner → ctx.deserializeState.isSome → ctx.state.length ≠ 0 →
      fromNode ≠ nodeId →
      (handle_state_message nodeId ctx fromNode payload).1.shadowState =
        (handle_state_message nodeId ctx fromNode payload).1.state) := by
  have hsync : ∀ m : Option PubMsg, m.isSome → m ≠ none := by
    intro m hm hn
    rw [hn] at hm
    simp at hm
  refine ⟨?_, ?_, ?_, ?_, ?_⟩
  · intro hsome
    simp only [sync_table] at hsome ⊢
    obtain ⟨h1a, h1b⟩ | ⟨h1a, h1b⟩ := syncConfigStep_spec nodeId now ctx
    · rw [h1b] at hsome
      simp at hsome
    · obtain ⟨h2a, _⟩ | ⟨h2a, _⟩ := syncStateStep_spec nodeId now
        (syncConfigStep nodeId now ctx).1 <;>
      obtain ⟨h3a, _⟩ | ⟨h3a, _⟩ := syncStatusStep_spec nodeId schemaVersion now
        (syncStateStep nodeId now (syncConfigStep nodeId now ctx).1).1 <;>
      · rw [h3a, h2a, h1a]
        split <;> simp
  · intro hsome
    simp only [sync_table] at hsome ⊢
    obtain ⟨h2a, h2b⟩ | ⟨h2a, h2b⟩ := syncStateStep_spec nodeId now
      (syncConfigStep nodeId now ctx).1
    · rw [h2b] at hsome
      simp at hsome
    · obtain ⟨h1a, _⟩ | ⟨h1a, _⟩ := syncConfigStep_spec nodeId now ctx <;>
      obtain ⟨h3a, _⟩ | ⟨h3a, _⟩ := syncStatusStep_spec nodeId schemaVersion now
        (syncStateStep nodeId now (syncConfigStep nodeId now ctx).1).1 <;>
      · rw [h3a, h2a, h1a]
        split <;> simp
  · intro hsome
    simp only [sync_table] at hsome ⊢
    obtain ⟨h3a, h3b⟩ | ⟨h3a, h3b⟩ := syncStatusStep_spec nodeId schemaVersion now
      (syncStateStep nodeId now (syncConfigStep nodeId now ctx).1).1
    · rw [h3b] at hsome
      simp at hsome
    · obtain ⟨h1a, _⟩ | ⟨h1a, _⟩ := syncConfigStep_spec nodeId now ctx <;>
      obtain ⟨h2a, _⟩ | ⟨h2a, _⟩ := syncStateStep_spec nodeId now
        (syncConfigStep nodeId now ctx).1 <;>
      · rw [h3a, h2a, h1a]
        split <;> simp
  · intro hrole hdes hsz
    unfold handle_config_message
    rw [if_neg (by simp [hrole])]
    obtain ⟨deser, hdeq⟩ := Option.isSome_iff_exists.mp hdes
    rw [hdeq]
    simp [hsz]
  · intro hrole hdes hsz hfrom
    unfold handle_state_message
    rw [if_neg (by simp [hrole])]
    obtain ⟨deser, hdeq⟩ := Option.isSome_iff_exists.mp hdes
    rw [hdeq]
    simp [hsz, hfrom]

/-- Witness for C2: a concrete owner table with changed config bytes; after
the tick the config shadow equals the section. -/
theorem shadow_equals_section_witness :
    (sync_table "own" "1" 5 true
      { baseCtx with
        role := SdsRole.owner, config := [2], shadowConfig := [0],
        serializeConfig := some (fun _ => []) }).ctx.shadowConfig =
    (sync_table "own" "1" 5 true
      { baseCtx with
        role := SdsRole.owner, config := [2], shadowConfig := [0],
        serializeConfig := some (fun _ => []) }).ctx.config :=
  (shadow_equals_section_after_sync_and_deserialize "own" "1" 5 true _ [] "d").1
    (by decide)

/-- C3: if no section's bytes differ from its shadow and no liveness
heartbeat is due, `sync_table` publishes nothing and leaves the context
untouched; in particular a table whose config bytes equal the config shadow
produces no config publish. -/
theorem no_redundant_publish (nodeId schemaVersion : String) (now : Nat) (pubOk : Bool)
    (ctx ctx2 : SdsTableContext)
    (h1 : ctx.config = ctx.shadowConfig) (h2 : ctx.state = ctx.shadowState)
    (h3 : ctx.status = ctx.shadowStatus)
    (h4 : ctx.role = SdsRole.owner ∨ ctx.livenessIntervalMs = 0 ∨
      elapsed32 now ctx.lastPublishMs < ctx.livenessIntervalMs)
    (h5 : ctx2.config = ctx2.shadowConfig) :
    sync_table nodeId schemaVersion now pubOk ctx =
      { ctx := ctx, cfgMsg := none, stMsg := none, statusMsg := none, errs := [] } ∧
    (sync_table nodeId schemaVersion now pubOk ctx2).cfgMsg = none := by
  constructor
  · have e1 := syncConfigStep_unchanged nodeId now ctx h1
    have e2 := syncStateStep_unchanged nodeId now ctx h2
    have e3 := syncStatusStep_unchanged nodeId schemaVersion now ctx h3 h4
    simp [sync_table, e1, e2, e3]
  · have e1 := syncConfigStep_unchanged nodeId now ctx2 h5
    simp [sync_table, e1]

/-- Witness for C3: an owner table whose sections all equal their shadows
publishes nothing on a tick. -/
theorem no_redundant_publish_witness :
    sync_table "own" "1" 7 true { baseCtx with role := SdsRole.owner } =
      { ctx := { baseCtx with role := SdsRole.owner }, cfgMsg := none, stMsg := none,
        statusMsg := none, errs := [] } :=
  (no_redundant_publish "own" "1" 7 true { baseCtx with role := SdsRole.owner }
    { baseCtx with role := SdsRole.owner } rfl rfl rfl (Or.inl rfl) rfl).1

/-- Counterexample to C5 as stated: a transport-level publish failure (the
transport returns `false`, the last argument of `sync_table`) does not keep
the shadow; the config shadow is updated to the section bytes anyway, so the
change is not re-detected later. -/
theorem transport_failure_still_updates_shadow :
    ((sync_table "own" "1" 0 false
        { baseCtx with
          role := SdsRole.owner, config := [2], shadowConfig := [0],
          serializeConfig := some (fun _ => []) }).ctx.shadowConfig = [2]) ∧
    ((sync_table "own" "1" 0 false
        { baseCtx with
          role := SdsRole.owner, config := [2], shadowConfig := [0],
          serializeConfig := some (fun _ => []) }).cfgMsg.isSome = true) ∧
    ({ baseCtx with
        role := SdsRole.owner, config := [2], shadowConfig := [0],
        serializeConfig := some (fun _ => []) } : SdsTableContext).shadowConfig ≠ [2] := by
  refine ⟨by decide, by decide, by decide⟩

/-- C5 (amended): a section's shadow is unchanged exactly when the section
published nothing this tick — in particular on serializer buffer overflow,
which yields no message and reports `BufferFull` — while the boolean result
of `sds_platform_mqtt_publish` is discarded, so a transport-level failure
does not prevent the shadow update. -/
theorem shadow_preserved_when_no_publish
    (nodeId schemaVersion : String) (now : Nat) (pubOk : Bool) (ctx : SdsTableContext)
    (ser : List Nat → List WriterOp) :
    ((sync_table nodeId schemaVersion now pubOk ctx).cfgMsg = none →
      (sync_table nodeId schemaVersion now pubOk ctx).ctx.shadowConfig = ctx.shadowConfig) ∧
    ((sync_table nodeId schemaVersion now pubOk ctx).stMsg = none →
      (sync_table nodeId schemaVersion now pubOk ctx).ctx.shadowState = ctx.shadowState) ∧
    ((sync_table nodeId schemaVersion now pubOk ctx).statusMsg = none →
      (sync_table nodeId schemaVersion now pubOk ctx).ctx.shadowStatus = ctx.shadowStatus) ∧
    (ctx.role = SdsRole.owner → ctx.serializeConfig = some ser → ctx.config.length ≠ 0 →
      ctx.config ≠ ctx.shadowConfig →
      (renderMsg (configMsgOps now nodeId (ser ctx.config))).error = true →
      (sync_table nodeId schemaVersion now pubOk ctx).cfgMsg = none ∧
        SdsError.bufferFull ∈ (sync_table nodeId schemaVersion now pubOk ctx).errs) ∧
    sync_table nodeId schemaVersion now true ctx = sync_table nodeId schemaVersion now false ctx := by
  refine ⟨?_, ?_, ?_, ?_, rfl⟩
  · intro hnone
    simp only [sync_table] at hnone ⊢
    obtain ⟨h1a, h1b⟩ | ⟨h1a, h1b⟩ := syncConfigStep_spec nodeId now ctx
    · obtain ⟨h2a, _⟩ | ⟨h2a, _⟩ := syncStateStep_spec nodeId now
        (syncConfigStep nodeId now ctx).1 <;>
      obtain ⟨h3a, _⟩ | ⟨h3a, _⟩ := syncStatusStep_spec nodeId schemaVersion now
        (syncStateStep nodeId now (syncConfigStep nodeId now ctx).1).1 <;>
      · rw [h3a, h2a, h1a]
        split <;> simp
    · rw [hnone] at h1b
      simp at h1b
  · intro hnone
    simp only [sync_table] at hnone ⊢
    obtain ⟨h2a, h2b⟩ | ⟨h2a, h2b⟩ := syncStateStep_spec nodeId now
      (syncConfigStep nodeId now ctx).1
    · obtain ⟨h1a, _⟩ | ⟨h1a, _⟩ := syncConfigStep_spec nodeId now ctx <;>
      obtain ⟨h3a, _⟩ | ⟨h3a, _⟩ := syncStatusStep_spec nodeId schemaVersion now
        (syncStateStep nodeId now (syncConfigStep nodeId now ctx).1).1 <;>
      · rw [h3a, h2a, h1a]
        split <;> simp
    · rw [hnone] at h2b
      simp at h2b
  · intro hnone
    simp only [sync_table] at hnone ⊢
    obtain ⟨h3a, h3b⟩ | ⟨h3a, h3b⟩ := syncStatusStep_spec nodeId schemaVersion now
      (syncStateStep nodeId now (syncConfigStep nodeId now ctx).1).1
    · obtain ⟨h1a, _⟩ | ⟨h1a, _⟩ := syncConfigStep_spec nodeId now ctx <;>
      obtain ⟨h2a, _⟩ | ⟨h2a, _⟩ := syncStateStep_spec nodeId now
        (syncConfigStep nodeId now ctx).1 <;>
      · rw [h3a, h2a, h1a]
        split <;> simp
    · rw [hnone] at h3b
      simp at h3b
  · intro hrole hser hsz hch herr
    have hcfg : syncConfigStep nodeId now ctx = (ctx, none, [SdsError.bufferFull]) := by
      unfold syncConfigStep
      rw [hrole, hser]
      dsimp only
      rw [if_pos hsz, if_pos hch, if_pos herr]
    constructor
    · simp [sync_table, hcfg]
    · simp [sync_table, hcfg]

/-- Witness for C5 (amended): a table that publishes nothing keeps its config
shadow. -/
theorem shadow_preserved_when_no_publish_witness :
    (sync_table "n" "1" 0 true baseCtx).ctx.shadowConfig = baseCtx.shadowConfig :=
  (shadow_preserved_when_no_publish "n" "1" 0 true baseCtx (fun _ => [])).1 (by decide)

/-! ### C4: liveness heartbeat -/

theorem applyOps_append (w : SdsJsonWriter) (l1 l2 : List WriterOp) :
    applyOps w (l1 ++ l2) = applyOps (applyOps w l1) l2 :=
  List.foldl_append _ _ _ _

theorem syncConfigStep_nonowner (nodeId : String) (now : Nat) (ctx : SdsTableContext)
    (hrole : ctx.role = SdsRole.device) :
    syncConfigStep nodeId now ctx = (ctx, none, []) := by
  unfold syncConfigStep
  split
  · rename_i ser heq1 heq2
    rw [hrole] at heq1
    exact absurd heq1 (by simp)
  · rfl

theorem syncStatusStep_publish (nodeId schemaVersion : String) (now : Nat)
    (ctx : SdsTableContext) (ser : List Nat → List WriterOp)
    (hrole : ctx.role = SdsRole.device) (hser : ctx.serializeStatus = some ser)
    (hsz : ctx.status.length ≠ 0)
    (hcond : ctx.status ≠ ctx.shadowStatus ∨
      (0 < ctx.livenessIntervalMs ∧
        ctx.livenessIntervalMs ≤ elapsed32 now ctx.lastPublishMs))
    (hok : (renderMsg (statusMsgOps now schemaVersion (ser ctx.status))).error = false) :
    syncStatusStep nodeId schemaVersion now ctx =
      ({ ctx with shadowStatus := ctx.status },
        some { topic := "sds/" ++ ctx.tableType ++ "/status/" ++ nodeId,
               payload := writerOutput (renderMsg (statusMsgOps now schemaVersion
                 (ser ctx.status))),
               retained := false }, []) := by
  unfold syncStatusStep
  rw [hrole, hser]
  dsimp only
  rw [if_pos hsz, if_pos hcond, if_neg (by simp [hok])]

theorem sds_json_add_bool_error_back {w : SdsJsonWriter} {key : List Char} {b : Bool}
    (he : (sds_json_add_bool w key b).error = false) : w.error = false := by
  unfold sds_json_add_bool at he
  obtain ⟨he4, _, _⟩ := json_append_success he
  obtain ⟨he3, _, _⟩ := json_append_success he4
  obtain ⟨he2, _, _⟩ := json_append_success he3
  exact commaMaybe_error_back (json_append_char_success he2).1

theorem sds_json_add_string_error_back {w : SdsJsonWriter} {key value : List Char}
    (he : (sds_json_add_string w key value).error = false) : w.error = false := by
  unfold sds_json_add_string at he
  obtain ⟨he5, _, _⟩ := json_append_char_success he
  have he4 := json_append_escaped_error_back he5
  obtain ⟨he3, _, _⟩ := json_append_success he4
  obtain ⟨he2, _, _⟩ := json_append_success he3
  exact commaMaybe_error_back (json_append_char_success he2).1

/-- A successfully rendered status message contains the literal text
`"online":true` and the quoted schema version after `"sv":`, provided the
version string has no characters the escape loop rewrites. -/
theorem statusMsg_payload_markers (now : Nat) (schemaVersion : String)
    (userOps : List WriterOp)
    (hok : (renderMsg (statusMsgOps now schemaVersion userOps)).error = false)
    (hver : ∀ c ∈ schemaVersion.data, plainChar c = true) :
    (∃ u v, writerOutput (renderMsg (statusMsgOps now schemaVersion userOps))
      = u ++ (['"'] ++ "online".data ++ ['"', ':'] ++ "true".data) ++ v) ∧
    (∃ u v, writerOutput (renderMsg (statusMsgOps now schemaVersion userOps))
      = u ++ (['"'] ++ "sv".data ++ ['"', ':', '"'] ++ schemaVersion.data ++ ['"']) ++ v) := by
  have hinv0 : WriterInv (sds_json_writer_init
      (List.replicate SDS_MSG_BUFFER_SIZE nulChar) SDS_MSG_BUFFER_SIZE) :=
    writer_init_inv (by simp) (by norm_num [SDS_MSG_BUFFER_SIZE])
  have hren : renderMsg (statusMsgOps now schemaVersion userOps)
      = applyOps (sds_json_add_string (sds_json_add_bool (sds_json_add_num
          (sds_json_start_object (sds_json_writer_init
            (List.replicate SDS_MSG_BUFFER_SIZE nulChar) SDS_MSG_BUFFER_SIZE))
          "ts".data (formatUint now)) "online".data true) "sv".data schemaVersion.data)
        (userOps ++ [WriterOp.endObject]) := by
    unfold renderMsg statusMsgOps
    rw [List.append_assoc, applyOps_append]
    rfl
  set w1 := sds_json_start_object (sds_json_writer_init
    (List.replicate SDS_MSG_BUFFER_SIZE nulChar) SDS_MSG_BUFFER_SIZE) with hw1
  set w2 := sds_json_add_num w1 "ts".data (formatUint now) with hw2
  set w3 := sds_json_add_bool w2 "online".data true with hw3
  set w4 := sds_json_add_string w3 "sv".data schemaVersion.data with hw4
  rw [hren] at hok ⊢
  have hinv1 : WriterInv w1 := applyOp_inv WriterOp.startObject hinv0
  have hinv2 : WriterInv w2 := applyOp_inv (WriterOp.addNum "ts".data (formatUint now)) hinv1
  have hinv3 : WriterInv w3 := applyOp_inv (WriterOp.addBool "online".data true) hinv2
  have hinv4 : WriterInv w4 :=
    applyOp_inv (WriterOp.addString "sv".data schemaVersion.data) hinv3
  have hce4 : w4.error = false := by
    cases h : w4.error
    · rfl
    · rw [applyOps_error_id _ h, h] at hok
      exact absurd hok (by simp)
  have hce3 : (sds_json_add_bool w2 "online".data true).error = false := by
    rw [← hw3]
    exact sds_json_add_string_error_back (hw4 ▸ hce4)
  obtain ⟨t3, ht3⟩ := applyOps_output_mono (userOps ++ [WriterOp.endObject]) hinv4 hok
  obtain ⟨t2, ht2⟩ := sds_json_add_string_output hver hinv3 (hw4 ▸ hce4)
  obtain ⟨t1, ht1⟩ := sds_json_add_bool_output hinv2 hce3
  rw [← hw3] at ht1
  rw [← hw4] at ht2
  constructor
  · refine ⟨writerOutput w2 ++ t1,
      (t2 ++ ['"'] ++ "sv".data ++ ['"', ':', '"'] ++ schemaVersion.data ++ ['"']) ++ t3, ?_⟩
    rw [ht3, ht2, ht1]
    simp
  · refine ⟨writerOutput w3 ++ t2, t3, ?_⟩
    rw [ht3, ht2]
    simp

/-- C4: a device table with a positive liveness interval whose status bytes
equal the shadow still publishes exactly one message once the liveness timer
expires, on `sds/<table>/status/<node_id>`, non-retained, containing
`"online":true` and the schema version; the status shadow and
`last_publish_ms` are updated. -/
theorem liveness_heartbeat_publishes_status
    (nodeId schemaVersion : String) (now : Nat) (pubOk : Bool) (ctx : SdsTableContext)
    (ser : List Nat → List WriterOp)
    (hrole : ctx.role = SdsRole.device)
    (hser : ctx.serializeStatus = some ser)
    (hsz : ctx.status.length ≠ 0)
    (hunch : ctx.status = ctx.shadowStatus)
    (hl0 : 0 < ctx.livenessIntervalMs)
    (hdue : ctx.livenessIntervalMs ≤ elapsed32 now ctx.lastPublishMs)
    (hstate : ctx.state = ctx.shadowState)
    (hok : (renderMsg (statusMsgOps now schemaVersion (ser ctx.status))).error = false)
    (hver : ∀ c ∈ schemaVersion.data, plainChar c = true) :
    (sync_table nodeId schemaVersion now pubOk ctx).cfgMsg = none ∧
    (sync_table nodeId schemaVersion now pubOk ctx).stMsg = none ∧
    (sync_table nodeId schemaVersion now pubOk ctx).ctx.shadowStatus = ctx.status ∧
    (sync_table nodeId schemaVersion now pubOk ctx).ctx.lastPublishMs = now ∧
    ∃ m, (sync_table nodeId schemaVersion now pubOk ctx).statusMsg = some m ∧
      m.topic = "sds/" ++ ctx.tableType ++ "/status/" ++ nodeId ∧
      m.retained = false ∧
      (∃ u v, m.payload = u ++ (['"'] ++ "online".data ++ ['"', ':'] ++ "true".data) ++ v) ∧
      (∃ u v, m.payload
        = u ++ (['"'] ++ "sv".data ++ ['"', ':', '"'] ++ schemaVersion.data ++ ['"']) ++ v) := by
  have hcfg := syncConfigStep_nonowner nodeId now ctx hrole
  have hstep2 := syncStateStep_unchanged nodeId now ctx hstate
  have hstep3 := syncStatusStep_publish nodeId schemaVersion now ctx ser hrole hser hsz
    (Or.inr ⟨hl0, hdue⟩) hok
  obtain ⟨hm1, hm2⟩ := statusMsg_payload_markers now schemaVersion (ser ctx.status) hok hver
  refine ⟨?_, ?_, ?_, ?_, ?_⟩
  · simp [sync_table, hcfg, hstep2, hstep3]
  · simp [sync_table, hcfg, hstep2, hstep3]
  · simp [sync_table, hcfg, hstep2, hstep3]
  · simp [sync_table, hcfg, hstep2, hstep3]
  · refine ⟨⟨"sds/" ++ ctx.tableType ++ "/status/" ++ nodeId,
      writerOutput (renderMsg (statusMsgOps now schemaVersion (ser ctx.status))), false⟩,
      ?_, rfl, rfl, hm1, hm2⟩
    simp [sync_table, hcfg, hstep2, hstep3]

/-- Witness for C4: a concrete device with unchanged status bytes and an
expired 1000 ms liveness timer updates `last_publish_ms` on the tick at
1100 ms (the heartbeat publish of the theorem). -/
theorem liveness_heartbeat_witness :
    (sync_table "dev1" "1.0.0" 1100 true
      { baseCtx with
        role := SdsRole.device, status := [5], shadowStatus := [5],
        livenessIntervalMs := 1000, lastPublishMs := 0,
        serializeStatus := some (fun _ => []) }).ctx.lastPublishMs = 1100 :=
  (liveness_heartbeat_publishes_status "dev1" "1.0.0" 1100 true
    { baseCtx with
      role := SdsRole.device, status := [5], shadowStatus := [5],
      livenessIntervalMs := 1000, lastPublishMs := 0,
      serializeStatus := some (fun _ => []) }
    (fun _ => []) rfl rfl (by decide) rfl (by decide) (by decide) rfl
    (by decide) (by decide)).2.2.2.1

/-! ### C6: schema-version gate on inbound status -/

/-- C6 (amended to a non-empty `sv`): for an inbound status message whose
parsed `sv` is non-empty and differs from the local schema version, the
message is accepted when no mismatch callback is registered, accepted exactly
when a registered callback returns `true` — acceptance meaning the result is
the same as processing with no version mismatch — and a rejected message
leaves the whole table context (all slot state and the status count)
unchanged with no status callback fired. -/
theorem version_gate_decides_acceptance
    (schemaVersion : String) (cb : String → String → String → String → Bool)
    (now : Nat) (ctx : SdsTableContext) (fromNode v : String) (msg : InStatusMsg)
    (hrole : ctx.role = SdsRole.owner)
    (hsv : msg.svField = some v) (hne : v ≠ "") (hdiff : v ≠ schemaVersion) :
    (handle_status_message schemaVersion none now ctx fromNode msg
      = handle_status_message v none now ctx fromNode msg) ∧
    (cb ctx.tableType fromNode schemaVersion v = true →
      handle_status_message schemaVersion (some cb) now ctx fromNode msg
        = handle_status_message v none now ctx fromNode msg) ∧
    (cb ctx.tableType fromNode schemaVersion v = false →
      handle_status_message schemaVersion (some cb) now ctx fromNode msg = (ctx, false)) := by
  have hrole' : ¬(ctx.role ≠ SdsRole.owner) := by simp [hrole]
  refine ⟨?_, ?_, ?_⟩
  · unfold handle_status_message
    rw [if_neg hrole', if_neg hrole']
    cases hde : ctx.deserializeStatus with
    | none => rfl
    | some deser =>
      simp only [hsv, Option.getD_some, ite_self]
  · intro hcb
    unfold handle_status_message
    rw [if_neg hrole', if_neg hrole']
    cases hde : ctx.deserializeStatus with
    | none => rfl
    | some deser =>
      simp only [hsv, Option.getD_some, hcb, ite_self, Bool.not_true, Bool.false_eq_true,
        if_false]
  · intro hcb
    unfold handle_status_message
    rw [if_neg hrole']
    cases hde : ctx.deserializeStatus with
    | none => rfl
    | some deser =>
      simp [hsv, hcb, hne, hdiff]

/-- Witness for C6 (amended): a rejecting callback leaves a concrete owner
context untouched. -/
theorem version_gate_witness :
    handle_status_message "1.0" (some (fun _ _ _ _ => false)) 9
      { baseCtx with
        role := SdsRole.owner, deserializeStatus := some (fun _ old => old) }
      "d2" { raw := [], svField := some "2.0", onlineField := some true } =
    ({ baseCtx with
        role := SdsRole.owner, deserializeStatus := some (fun _ old => old) }, false) :=
  (version_gate_decides_acceptance "1.0" (fun _ _ _ _ => false) 9
    { baseCtx with
      role := SdsRole.owner, deserializeStatus := some (fun _ old => old) }
    "d2" "2.0" { raw := [], svField := some "2.0", onlineField := some true }
    rfl rfl (by decide) (by decide)).2.2 rfl

/-- Counterexample to C6 as stated: a message carrying a present but empty
`sv` field (payload `"sv":""`, which `sds_json_get_string_field` parses
successfully into an empty string) differs from the local version "unknown",
yet `handle_status_message` never consults the rejecting callback — the gate
tests `remote_version[0] != '\0'` — and the message is accepted: a slot is
allocated and updated. -/
theorem empty_sv_accepted_despite_rejecting_callback :
    (handle_status_message "unknown" (some (fun _ _ _ _ => false)) 50
        { baseCtx with
          role := SdsRole.owner,
          deserializeStatus := some (fun _ old => old),
          statusSlotsConfigured := true, statusSlots := [emptySlot] }
        "d1" { raw := [], svField := some "", onlineField := some true }).1.statusSlots =
      [{ nodeId := "d1", valid := true, online := true, lastSeenMs := 50, status := [] }] ∧
    emptySlot.valid = false := by
  exact ⟨by decide, rfl⟩

/-! ### C7: uniqueness of valid status slots -/

/-- No two valid slots share a node id. -/
def SlotsUnique (slots : List StatusSlot) : Prop :=
  ∀ (i j : Nat) (h1 : i < slots.length) (h2 : j < slots.length), i ≠ j →
    (slots.get ⟨i, h1⟩).valid = true → (slots.get ⟨j, h2⟩).valid = true →
    (slots.get ⟨i, h1⟩).nodeId ≠ (slots.get ⟨j, h2⟩).nodeId

theorem findSlot_none_spec {α : Type} (p : α → Bool) :
    ∀ (l : List α), findSlot p l = none → ∀ s ∈ l, p s = false := by
  intro l
  induction l with
  | nil => intro _ s hs; simp at hs
  | cons a rest ih =>
    intro h s hs
    unfold findSlot at h
    by_cases hp : p a
    · rw [if_pos hp] at h
      exact absurd h (by simp)
    · rw [if_neg hp] at h
      rcases List.mem_cons.mp hs with rfl | hmem
      · simpa using hp
      · refine ih ?_ s hmem
        cases hf : findSlot p rest
        · rfl
        · rw [hf] at h
          simp at h

theorem findSlot_some_spec {α : Type} (p : α → Bool) :
    ∀ (l : List α) (i : Nat), findSlot p l = some i →
      ∃ h : i < l.length, p (l.get ⟨i, h⟩) = true := by
  intro l
  induction l with
  | nil => intro i h; simp [findSlot] at h
  | cons a rest ih =>
    intro i h
    unfold findSlot at h
    by_cases hp : p a
    · rw [if_pos hp] at h
      cases h
      exact ⟨by simp, hp⟩
    · rw [if_neg hp] at h
      cases hf : findSlot p rest with
      | none =>
        rw [hf] at h
        simp at h
      | some j =>
        rw [hf] at h
        simp at h
        obtain ⟨hj, hpj⟩ := ih j hf
        subst h
        exact ⟨by simp; omega, by simpa using hpj⟩

theorem slotsUnique_set_same_key {l : List StatusSlot} {i : Nat} {x : StatusSlot}
    (h : SlotsUnique l) (hi : i < l.length)
    (hid : x.nodeId = (l.get ⟨i, hi⟩).nodeId) (hval : x.valid = (l.get ⟨i, hi⟩).valid) :
    SlotsUnique (l.set i x) := by
  intro a b h1 h2 hab hva hvb
  have h1' : a < l.length := by
    have := List.length_set l i x
    omega
  have h2' : b < l.length := by
    have := List.length_set l i x
    omega
  have hga : (l.set i x).get ⟨a, h1⟩ = if i = a then x else l.get ⟨a, h1'⟩ := by
    simp [List.get_eq_getElem, List.getElem_set]
  have hgb : (l.set i x).get ⟨b, h2⟩ = if i = b then x else l.get ⟨b, h2'⟩ := by
    simp [List.get_eq_getElem, List.getElem_set]
  rw [hga] at hva
  rw [hgb] at hvb
  rw [hga, hgb]
  by_cases hia : i = a
  · rw [if_pos hia] at hva ⊢
    rw [if_neg (by omega)] at hvb ⊢
    subst hia
    rw [hid]
    rw [hval] at hva
    exact h i b hi h2' hab hva hvb
  · rw [if_neg hia] at hva ⊢
    by_cases hib : i = b
    · rw [if_pos hib] at hvb ⊢
      subst hib
      rw [hid]
      rw [hval] at hvb
      exact fun heq => (h i a hi h1' (by omega) hvb hva) heq.symm
    · rw [if_neg hib] at hvb ⊢
      exact h a b h1' h2' hab hva hvb

theorem slotsUnique_set_fresh {l : List StatusSlot} {i : Nat} {x : StatusSlot}
    (h : SlotsUnique l)
    (hfresh : ∀ s ∈ l, s.valid = true → s.nodeId ≠ x.nodeId) :
    SlotsUnique (l.set i x) := by
  intro a b h1 h2 hab hva hvb
  have h1' : a < l.length := by
    have := List.length_set l i x
    omega
  have h2' : b < l.length := by
    have := List.length_set l i x
    omega
  have hga : (l.set i x).get ⟨a, h1⟩ = if i = a then x else l.get ⟨a, h1'⟩ := by
    simp [List.get_eq_getElem, List.getElem_set]
  have hgb : (l.set i x).get ⟨b, h2⟩ = if i = b then x else l.get ⟨b, h2'⟩ := by
    simp [List.get_eq_getElem, List.getElem_set]
  rw [hga] at hva
  rw [hgb] at hvb
  rw [hga, hgb]
  by_cases hia : i = a
  · rw [if_pos hia] at hva ⊢
    rw [if_neg (by omega)] at hvb ⊢
    exact fun heq => (hfresh _ (l.get_mem _ _) hvb) heq.symm
  · rw [if_neg hia] at hva ⊢
    by_cases hib : i = b
    · rw [if_pos hib] at hvb ⊢
      exact hfresh _ (l.get_mem _ _) hva
    · rw [if_neg hib] at hvb ⊢
      exact h a b h1' h2' hab hva hvb

theorem truncateNodeId_eq_of_short {s : String}
    (hlen : s.length ≤ SDS_MAX_NODE_ID_LEN - 1) : truncateNodeId s = s := by
  unfold truncateNodeId
  rw [String.take_eq]
  cases s with
  | mk data =>
    simp only [String.length] at hlen
    simp [List.take_of_length_le hlen]

/-- Characterization of `find_or_alloc_status_slot` when it yields a slot:
either an existing valid slot with exactly this node id, or a fresh slot in a
table that held no valid slot with this id, initialized with the truncated
id. -/
theorem find_or_alloc_spec {now : Nat} {ctx : SdsTableContext} {nodeId : String}
    {i : Nat} {ctx1 : SdsTableContext}
    (h : find_or_alloc_status_slot now ctx nodeId = some (i, ctx1)) :
    ∃ hi : i < ctx.statusSlots.length,
      (ctx1 = ctx ∧ (ctx.statusSlots.get ⟨i, hi⟩).valid = true ∧
        (ctx.statusSlots.get ⟨i, hi⟩).nodeId = nodeId) ∨
      (ctx1.statusSlots = ctx.statusSlots.set i
          { nodeId := truncateNodeId nodeId, valid := true, online := true,
            lastSeenMs := now, status := (ctx.statusSlots.get ⟨i, hi⟩).status } ∧
        (∀ s ∈ ctx.statusSlots, s.valid = true → s.nodeId ≠ nodeId)) := by
  unfold find_or_alloc_status_slot at h
  by_cases hcfg : ¬ctx.statusSlotsConfigured
  · rw [if_pos hcfg] at h
    simp at h
  · rw [if_neg hcfg] at h
    cases hf1 : findSlot (fun s => s.valid && s.nodeId == nodeId) ctx.statusSlots with
    | some k =>
      rw [hf1] at h
      simp only [Option.some.injEq, Prod.mk.injEq] at h
      obtain ⟨hk, hctx⟩ := h
      subst hk
      subst hctx
      obtain ⟨hlt, hp⟩ := findSlot_some_spec _ _ _ hf1
      simp only [Bool.and_eq_true, beq_iff_eq] at hp
      exact ⟨hlt, Or.inl ⟨rfl, hp.1, hp.2⟩⟩
    | none =>
      rw [hf1] at h
      cases hf2 : findSlot (fun s => !s.valid) ctx.statusSlots with
      | none =>
        rw [hf2] at h
        simp at h
      | some k =>
        rw [hf2] at h
        simp only [Option.some.injEq, Prod.mk.injEq] at h
        obtain ⟨rfl, hctx⟩ := h
        obtain ⟨hlt, _⟩ := findSlot_some_spec _ _ _ hf2
        refine ⟨hlt, Or.inr ⟨?_, ?_⟩⟩
        · rw [← hctx]
          simp [List.getD, List.get_eq_getElem, List.getElem?_eq_getElem hlt]
        · intro s hs hval heq
          have := findSlot_none_spec _ _ hf1 s hs
          simp [hval, heq] at this

theorem updSlot_nodeId (deser : List Char → List Nat → List Nat) (now : Nat)
    (msg : InStatusMsg) (old : StatusSlot) :
    (updSlot deser now msg old).nodeId = old.nodeId := by
  unfold updSlot
  dsimp only
  split <;> rfl

theorem updSlot_valid (deser : List Char → List Nat → List Nat) (now : Nat)
    (msg : InStatusMsg) (old : StatusSlot) :
    (updSlot deser now msg old).valid = old.valid := by
  unfold updSlot
  dsimp only
  split <;> rfl

/-- The slot array stays duplicate-free across the find-or-alloc plus update
performed for one accepted status message, provided the device's node id fits
the 31-character slot field. -/
theorem slots_unique_after_update
    (deser : List Char → List Nat → List Nat) (now : Nat) (msg : InStatusMsg)
    {ctx ctx1 : SdsTableContext} {fromNode : String} {i : Nat}
    (hlen : fromNode.length ≤ SDS_MAX_NODE_ID_LEN - 1)
    (h : SlotsUnique ctx.statusSlots)
    (heq : find_or_alloc_status_slot now ctx fromNode = some (i, ctx1)) :
    SlotsUnique (ctx1.statusSlots.set i
      (updSlot deser now msg (ctx1.statusSlots.getD i emptySlot))) := by
  obtain ⟨hi, hcase⟩ := find_or_alloc_spec heq
  rcases hcase with ⟨rfl, hval, hid⟩ | ⟨hslots, hfresh⟩
  · have hgd : ctx1.statusSlots.getD i emptySlot = ctx1.statusSlots.get ⟨i, hi⟩ := by
      simp [List.getD, List.get_eq_getElem, List.getElem?_eq_getElem hi]
    rw [hgd]
    exact slotsUnique_set_same_key h hi (updSlot_nodeId _ _ _ _) (updSlot_valid _ _ _ _)
  · have hgd : ctx1.statusSlots.getD i emptySlot
        = { nodeId := truncateNodeId fromNode, valid := true, online := true,
            lastSeenMs := now, status := (ctx.statusSlots.get ⟨i, hi⟩).status } := by
      rw [hslots]
      simp [List.getD, List.getElem?_set_self hi]
    rw [hgd, hslots, List.set_set]
    apply slotsUnique_set_fresh h
    intro s hs hval heq2
    rw [updSlot_nodeId] at heq2
    dsimp only at heq2
    rw [truncateNodeId_eq_of_short hlen] at heq2
    exact hfresh s hs hval heq2

/-- One inbound status message preserves slot uniqueness, provided the
device's node id fits the 31-character slot field. -/
theorem handle_status_preserves_unique
    (schemaVersion : String) (cb : Option (String → String → String → String → Bool))
    (now : Nat) (ctx : SdsTableContext) (fromNode : String) (msg : InStatusMsg)
    (hlen : fromNode.length ≤ SDS_MAX_NODE_ID_LEN - 1)
    (h : SlotsUnique ctx.statusSlots) :
    SlotsUnique (handle_status_message schemaVersion cb now ctx fromNode msg).1.statusSlots := by
  unfold handle_status_message
  by_cases hr : ctx.role ≠ SdsRole.owner
  · rw [if_pos hr]
    exact h
  · rw [if_neg hr]
    cases hde : ctx.deserializeStatus with
    | none => exact h
    | some deser =>
      dsimp only
      split
      · split
        · exact h
        · split
          · exact h
          · rename_i i ctx1 heq
            exact slots_unique_after_update deser now msg hlen h heq
      · split
        · exact h
        · split
          · exact h
          · rename_i i ctx1 heq
            exact slots_unique_after_update deser now msg hlen h heq

/-- Process a sequence of inbound status messages `(now, from_node, payload)`
through `handle_status_message`, as `on_mqtt_message` does for successive
`sds/<table>/status/<device>` deliveries. -/
def processStatusMsgs (schemaVersion : String)
    (cb : Option (String → String → String → String → Bool))
    (ctx : SdsTableContext) (msgs : List (Nat × String × InStatusMsg)) : SdsTableContext :=
  msgs.foldl (fun c p => (handle_status_message schemaVersion cb p.1 c p.2.1 p.2.2).1) ctx

theorem processStatusMsgs_preserves_unique (schemaVersion : String)
    (cb : Option (String → String → String → String → Bool))
    (msgs : List (Nat × String × InStatusMsg)) :
    ∀ ctx : SdsTableContext,
      (∀ p ∈ msgs, (p.2.1 : String).length ≤ SDS_MAX_NODE_ID_LEN - 1) →
      SlotsUnique ctx.statusSlots →
      SlotsUnique (processStatusMsgs schemaVersion cb ctx msgs).statusSlots := by
  induction msgs with
  | nil => intro ctx _ h; exact h
  | cons p rest ih =>
    intro ctx hlen h
    exact ih _ (fun q hq => hlen q (by simp [hq]))
      (handle_status_preserves_unique schemaVersion cb p.1 ctx p.2.1 p.2.2
        (hlen p (by simp)) h)

/-- C7 (amended to node ids that fit the 31-character slot field): after any
sequence of inbound status messages starting from an owner table whose slots
are all invalid (zero-initialized), no two valid slots share a node id. -/
theorem slot_uniqueness_for_bounded_ids (schemaVersion : String)
    (cb : Option (String → String → String → String → Bool))
    (ctx0 : SdsTableContext) (msgs : List (Nat × String × InStatusMsg))
    (hlen : ∀ p ∈ msgs, (p.2.1 : String).length ≤ SDS_MAX_NODE_ID_LEN - 1)
    (hinit : ∀ s ∈ ctx0.statusSlots, s.valid = false) :
    SlotsUnique (processStatusMsgs schemaVersion cb ctx0 msgs).statusSlots := by
  refine processStatusMsgs_preserves_unique schemaVersion cb msgs ctx0 hlen ?_
  intro i j h1 h2 _ hvi _
  have := hinit (ctx0.statusSlots.get ⟨i, h1⟩) (ctx0.statusSlots.get_mem _ _)
  rw [this] at hvi
  exact absurd hvi (by simp)

/-- Witness for C7 (amended): two devices with short ids occupy two distinct
slots with distinct ids. -/
theorem slot_uniqueness_witness :
    SlotsUnique (processStatusMsgs "1" none
      { baseCtx with
        role := SdsRole.owner, deserializeStatus := some (fun _ old => old),
        statusSlotsConfigured := true, statusSlots := [emptySlot, emptySlot] }
      [(1, "d1", { raw := [], svField := none, onlineField := some true }),
       (2, "d2", { raw := [], svField := none, onlineField := some true })]).statusSlots :=
  slot_uniqueness_for_bounded_ids "1" none _ _ (by decide) (by decide)

/-- Counterexample to C7 as stated: a device whose node id is 32 characters
long sends two status messages; `strncpy` truncation stores only 31
characters, the second lookup fails to match the stored id, and a second
valid slot is allocated with the same stored node id. -/
theorem truncated_node_id_breaks_uniqueness :
    ¬ SlotsUnique (processStatusMsgs "1" none
      { baseCtx with
        role := SdsRole.owner, deserializeStatus := some (fun _ old => old),
        statusSlotsConfigured := true, statusSlots := [emptySlot, emptySlot] }
      [(1, "aaaaaaaaaaaaaaaaaaaaaaaaaaaaaaaa",
          { raw := [], svField := none, onlineField := some true }),
       (2, "aaaaaaaaaaaaaaaaaaaaaaaaaaaaaaaa",
          { raw := [], svField := none, onlineField := some true })]).statusSlots := by
  intro h
  have h01 := h 0 1 (by decide) (by decide) (by decide) (by decide) (by decide)
  exact h01 (by decide)

/-! ### C8: reconnect backoff (disconnected branch of `sds_loop`) -/

/-- `SDS_RECONNECT_INITIAL_MS` (sds_core.c:122). -/
def SDS_RECONNECT_INITIAL_MS : Nat := 1000

/-- `SDS_RECONNECT_MAX_MS` (sds_core.c:123). -/
def SDS_RECONNECT_MAX_MS : Nat := 60000

/-- `SDS_RECONNECT_MULTIPLIER` (sds_core.c:124). -/
def SDS_RECONNECT_MULTIPLIER : Nat := 2

/-- The reconnect bookkeeping of sds_core.c: `_reconnect_backoff_ms`,
`_last_reconnect_attempt_ms` and `_stats.reconnect_count`, all `uint32_t`. -/
structure ConnState where
  reconnectBackoffMs : Nat
  lastReconnectAttemptMs : Nat
  reconnectCount : Nat
deriving Repr, DecidableEq

/-- `subscribe_table_topics` (sds_core.c:875-891): the topics subscribed for
one registration. -/
def subscribe_table_topics (ctx : SdsTableContext) : List String :=
  match ctx.role with
  | SdsRole.device => ["sds/" ++ ctx.tableType ++ "/config"]
  | SdsRole.owner =>
    ["sds/" ++ ctx.tableType ++ "/state", "sds/" ++ ctx.tableType ++ "/status/+"]

/-- The disconnected branch of `sds_loop` (sds_core.c:312-374): wait out the
backoff, otherwise initialize it to 1000 ms or double it capped at 60000 ms,
record the attempt time, and attempt to reconnect; on success increment the
reconnect counter, reset the backoff to zero and re-subscribe every active
table's topics.  `connectOk` is the boolean returned by the platform connect
call; the returned list is the sequence of topics passed to
`sds_platform_mqtt_subscribe`, and the returned flag says whether a connect
attempt was made. -/
def sds_loop_disconnected (now : Nat) (connectOk : Bool)
    (tables : List SdsTableContext) (s : ConnState) :
    ConnState × List String × Bool :=
  if 0 < s.reconnectBackoffMs ∧
      elapsed32 now s.lastReconnectAttemptMs < s.reconnectBackoffMs then
    (s, [], false)
  else
    let backoff :=
      if s.reconnectBackoffMs = 0 then SDS_RECONNECT_INITIAL_MS
      else
        let doubled := s.reconnectBackoffMs * SDS_RECONNECT_MULTIPLIER % 2 ^ 32
        if SDS_RECONNECT_MAX_MS < doubled then SDS_RECONNECT_MAX_MS else doubled
    let s1 := { s with reconnectBackoffMs := backoff,
                       lastReconnectAttemptMs := now % 2 ^ 32 }
    if connectOk then
      ({ s1 with reconnectCount := (s1.reconnectCount + 1) % 2 ^ 32,
                 reconnectBackoffMs := 0 },
        (tables.filter (fun c => c.active)).flatMap subscribe_table_topics, true)
    else (s1, [], true)

/-- C8: while disconnected, `sds_loop` makes no attempt before the current
backoff has elapsed since the last attempt; a failed first attempt sets the
backoff to 1000 ms; each further failed attempt doubles it, never exceeding
60000 ms; and a successful connect resets the backoff to zero, increments
the reconnect counter, and re-subscribes the topics of every active table. -/
theorem reconnect_backoff_spec (now : Nat) (connectOk : Bool)
    (tables : List SdsTableContext) (s : ConnState) :
    ((0 < s.reconnectBackoffMs →
      elapsed32 now s.lastReconnectAttemptMs < s.reconnectBackoffMs →
      sds_loop_disconnected now connectOk tables s = (s, [], false)) ∧
     (s.reconnectBackoffMs = 0 → connectOk = false →
      sds_loop_disconnected now false tables s =
        ({ s with reconnectBackoffMs := SDS_RECONNECT_INITIAL_MS,
                  lastReconnectAttemptMs := now % 2 ^ 32 }, [], true))) ∧
    (0 < s.reconnectBackoffMs →
      s.reconnectBackoffMs ≤ elapsed32 now s.lastReconnectAttemptMs →
      ((sds_loop_disconnected now false tables s).1.reconnectBackoffMs
          ≤ SDS_RECONNECT_MAX_MS ∧
        (s.reconnectBackoffMs * SDS_RECONNECT_MULTIPLIER ≤ SDS_RECONNECT_MAX_MS →
          (sds_loop_disconnected now false tables s).1.reconnectBackoffMs
            = s.reconnectBackoffMs * SDS_RECONNECT_MULTIPLIER))) ∧
    (connectOk = true →
      ¬(0 < s.reconnectBackoffMs ∧
        elapsed32 now s.lastReconnectAttemptMs < s.reconnectBackoffMs) →
      ((sds_loop_disconnected now connectOk tables s).1.reconnectBackoffMs = 0 ∧
        (sds_loop_disconnected now connectOk tables s).1.reconnectCount
          = (s.reconnectCount + 1) % 2 ^ 32 ∧
        (sds_loop_disconnected now connectOk tables s).2.1
          = (tables.filter (fun c => c.active)).flatMap subscribe_table_topics ∧
        ∀ ctx ∈ tables, ctx.active = true →
          ∀ t ∈ subscribe_table_topics ctx,
            t ∈ (sds_loop_disconnected now connectOk tables s).2.1)) := by
  refine ⟨⟨?_, ?_⟩, ?_, ?_⟩
  · intro h1 h2
    unfold sds_loop_disconnected
    rw [if_pos ⟨h1, h2⟩]
  · intro h0 _
    unfold sds_loop_disconnected
    rw [if_neg (by omega)]
    dsimp only
    rw [if_pos h0, if_neg (by simp)]
  · intro h1 h2
    unfold sds_loop_disconnected
    rw [if_neg (by omega)]
    dsimp only
    rw [if_neg (show ¬(s.reconnectBackoffMs = 0) by omega),
      if_neg (show ¬((false : Bool) = true) by simp)]
    dsimp only
    constructor
    · split <;> simp [SDS_RECONNECT_MAX_MS] at * <;> omega
    · intro hle
      have hlt : s.reconnectBackoffMs * SDS_RECONNECT_MULTIPLIER < 2 ^ 32 := by
        simp only [SDS_RECONNECT_MAX_MS, SDS_RECONNECT_MULTIPLIER] at *
        omega
      rw [Nat.mod_eq_of_lt hlt]
      rw [if_neg (by omega)]
  · intro hok hwait
    subst hok
    unfold sds_loop_disconnected
    rw [if_neg hwait]
    dsimp only
    rw [if_pos rfl]
    refine ⟨rfl, rfl, rfl, ?_⟩
    intro ctx hctx hact t ht
    dsimp only
    rw [List.mem_flatMap]
    exact ⟨ctx, List.mem_filter.mpr ⟨hctx, by simp [hact]⟩, ht⟩

/-- Witness for C8: a successful reconnect at a concrete state resets the
backoff and re-subscribes a device table's config topic. -/
theorem reconnect_backoff_witness :
    (sds_loop_disconnected 5000 true [{ baseCtx with role := SdsRole.device }]
      { reconnectBackoffMs := 2000, lastReconnectAttemptMs := 0,
        reconnectCount := 4 }).1.reconnectBackoffMs = 0 ∧
    (sds_loop_disconnected 5000 true [{ baseCtx with role := SdsRole.device }]
      { reconnectBackoffMs := 2000, lastReconnectAttemptMs := 0,
        reconnectCount := 4 }).1.reconnectCount = 5 ∧
    "sds/T/config" ∈ (sds_loop_disconnected 5000 true
      [{ baseCtx with role := SdsRole.device }]
      { reconnectBackoffMs := 2000, lastReconnectAttemptMs := 0,
        reconnectCount := 4 }).2.1 := by
  have h := (reconnect_backoff_spec 5000 true
    [{ baseCtx with role := SdsRole.device }]
    { reconnectBackoffMs := 2000, lastReconnectAttemptMs := 0,
      reconnectCount := 4 }).2.2 rfl (by decide)
  exact ⟨h.1, h.2.1, h.2.2.2 { baseCtx with role := SdsRole.device } (by simp) rfl
    "sds/T/config" (by simp [subscribe_table_topics, baseCtx])⟩

/-! ### C10: registration, unregistration and per-table callback setters -/

/-- `SDS_MAX_TABLE_TYPE_LEN` (sds.h:72). -/
def SDS_MAX_TABLE_TYPE_LEN : Nat := 32

/-- `SDS_SHADOW_SIZE` (sds_core.c:23, default branch). -/
def SDS_SHADOW_SIZE : Nat := 256

/-- `SDS_DEFAULT_SYNC_INTERVAL_MS` (sds.h:78). -/
def SDS_DEFAULT_SYNC_INTERVAL_MS : Nat := 1000

/-- `SDS_DEFAULT_LIVENESS_INTERVAL_MS` (sds.h:81). -/
def SDS_DEFAULT_LIVENESS_INTERVAL_MS : Nat := 30000

/-- `strncpy(ctx->table_type, table_type, SDS_MAX_TABLE_TYPE_LEN - 1)` into a
zeroed context stores at most 31 characters (sds_core.c:451). -/
def truncateTableType (s : String) : String := s.take (SDS_MAX_TABLE_TYPE_LEN - 1)

/-- A table slot after `memset(ctx, 0, sizeof(*ctx))` (sds_core.c:449): every
field zero; note the zero role is `SDS_ROLE_OWNER`, and zero section sizes and
offsets are modelled as empty byte lists and unconfigured slot layout. -/
def emptyTableCtx : SdsTableContext :=
  { active := false, tableType := "", role := SdsRole.owner, syncIntervalMs := 0,
    lastSyncMs := 0, livenessIntervalMs := 0, lastPublishMs := 0,
    config := [], state := [], status := [], shadowConfig := [], shadowState := [],
    shadowStatus := [], serializeConfig := none, deserializeConfig := none,
    serializeState := none, deserializeState := none, serializeStatus := none,
    deserializeStatus := none, configCallback := none, stateCallback := none,
    statusCallback := none, statusSlotsConfigured := false, statusSlots := [],
    statusCountConfigured := false, statusCount := 0 }

/-- `find_table` (sds_core.c:866-873): the first active slot whose stored type
strcmp-matches the argument; the C function returns a pointer into `_tables`,
modelled as the slot index. -/
def find_table (tables : List SdsTableContext) (tableType : String) : Option Nat :=
  findSlot (fun c => c.active && c.tableType == tableType) tables

/-- `sds_on_config_update` (sds_core.c:677-682): a `void` function that stores
the callback when the table is found and otherwise does nothing. -/
def sds_on_config_update (tables : List SdsTableContext) (tableType : String)
    (callback : Option Nat) : List SdsTableContext :=
  match find_table tables tableType with
  | none => tables
  | some i =>
    tables.set i
      { tables.getD i emptyTableCtx with
        configCallback := callback }

/-- `sds_on_state_update` (sds_core.c:684-689). -/
def sds_on_state_update (tables : List SdsTableContext) (tableType : String)
    (callback : Option Nat) : List SdsTableContext :=
  match find_table tables tableType with
  | none => tables
  | some i =>
    tables.set i
      { tables.getD i emptyTableCtx with
        stateCallback := callback }

/-- `sds_on_status_update` (sds_core.c:691-696). -/
def sds_on_status_update (tables : List SdsTableContext) (tableType : String)
    (callback : Option Nat) : List SdsTableContext :=
  match find_table tables tableType with
  | none => tables
  | some i =>
    tables.set i
      { tables.getD i emptyTableCtx with
        statusCallback := callback }

/-- The slot contents written by `alloc_table_slot` after the `memset`
(sds_core.c:449-457). -/
def allocCtx (now : Nat) (tableType : String) (role : SdsRole)
    (optionsSyncMs : Option Nat) : SdsTableContext :=
  { emptyTableCtx with
    active := true, tableType := truncateTableType tableType, role := role,
    syncIntervalMs := optionsSyncMs.getD SDS_DEFAULT_SYNC_INTERVAL_MS,
    livenessIntervalMs := SDS_DEFAULT_LIVENESS_INTERVAL_MS,
    lastSyncMs := now % 2 ^ 32, lastPublishMs := now % 2 ^ 32 }

/-- `alloc_table_slot` (sds_core.c:436-462): first inactive slot, cleared and
re-initialized; `none` when no slot is free.  `optionsSyncMs` is
`options ? options->sync_interval_ms : SDS_DEFAULT_SYNC_INTERVAL_MS`. -/
def alloc_table_slot (now : Nat) (tables : List SdsTableContext)
    (tableType : String) (role : SdsRole) (optionsSyncMs : Option Nat) :
    Option (Nat × List SdsTableContext) :=
  match findSlot (fun c => !c.active) tables with
  | none => none
  | some i => some (i, tables.set i (allocCtx now tableType role optionsSyncMs))

/-- `sds_unregister_table` (sds_core.c:549-569): find the table, unsubscribe
(transport only, no durable state) and clear `active`. -/
def sds_unregister_table (tables : List SdsTableContext) (tableType : String) :
    List SdsTableContext × Option SdsError :=
  match find_table tables tableType with
  | none => (tables, some SdsError.tableNotFound)
  | some i =>
    (tables.set i
      { tables.getD i emptyTableCtx with
        active := false }, none)

/-- `sds_register_table_ex` (sds_core.c:577-673): reject an empty type, a
duplicate registration, a full registry, and over-large sections (deactivating
the slot again); otherwise store sections, serializers and zeroed shadows, and
for an owner with a config serializer and a non-empty config publish the
initial config message (unconditionally, without checking the writer error
flag) and copy the config shadow.  The null-pointer checks, the
`_initialized` guard, the subscription side effects and the C role-range
check (unrepresentable here) are not modelled. -/
def sds_register_table_ex (now : Nat) (nodeId : String)
    (tables : List SdsTableContext) (tableType : String) (role : SdsRole)
    (optionsSyncMs : Option Nat) (config state status : List Nat)
    (serCfg : Option (List Nat → List WriterOp))
    (deserCfg : Option (List Char → List Nat → List Nat))
    (serSt : Option (List Nat → List WriterOp))
    (deserSt : Option (List Char → List Nat → List Nat))
    (serStat : Option (List Nat → List WriterOp))
    (deserStat : Option (List Char → List Nat → List Nat)) :
    List SdsTableContext × Option SdsError × Option PubMsg :=
  if tableType = "" then (tables, some SdsError.invalidTable, none)
  else if (find_table tables tableType).isSome then
    (tables, some SdsError.tableAlreadyRegistered, none)
  else
    match alloc_table_slot now tables tableType role optionsSyncMs with
    | none => (tables, some SdsError.maxTablesReached, none)
    | some (k, tables1) =>
      if SDS_SHADOW_SIZE < config.length ∨ SDS_SHADOW_SIZE < state.length ∨
          SDS_SHADOW_SIZE < status.length then
        (tables1.set k
          { tables1.getD k emptyTableCtx with
            active := false }, some SdsError.sectionTooLarge, none)
      else
        let ctx1 :=
          { tables1.getD k emptyTableCtx with
            config := config, state := state, status := status,
            serializeConfig := serCfg, deserializeConfig := deserCfg,
            serializeState := serSt, deserializeState := deserSt,
            serializeStatus := serStat, deserializeStatus := deserStat,
            shadowConfig := List.replicate config.length 0,
            shadowState := List.replicate state.length 0,
            shadowStatus := List.replicate status.length 0 }
        match role, serCfg with
        | SdsRole.owner, some ser =>
          if config.length ≠ 0 then
            let w := renderMsg (configMsgOps now nodeId (ser config))
            (tables1.set k
              { ctx1 with
                shadowConfig := config }, none,
              some { topic := "sds/" ++ tableType ++ "/config",
                     payload := writerOutput w, retained := true })
          else (tables1.set k ctx1, none, none)
        | _, _ => (tables1.set k ctx1, none, none)

theorem alloc_table_slot_spec {now : Nat} {tables : List SdsTableContext}
    {tableType : String} {role : SdsRole} {opt : Option Nat} {k : Nat}
    {tables1 : List SdsTableContext}
    (h : alloc_table_slot now tables tableType role opt = some (k, tables1)) :
    k < tables.length ∧ tables1 = tables.set k (allocCtx now tableType role opt) := by
  unfold alloc_table_slot at h
  cases hf : findSlot (fun c => !c.active) tables with
  | none =>
    rw [hf] at h
    exact absurd h (by simp)
  | some i =>
    rw [hf] at h
    obtain ⟨hi, -⟩ := findSlot_some_spec _ tables i hf
    simp only [Option.some.injEq, Prod.mk.injEq] at h
    obtain ⟨rfl, rfl⟩ := h
    exact ⟨hi, rfl⟩

theorem register_success_shape
    (now : Nat) (nodeId : String) (tables : List SdsTableContext)
    (tableType : String) (role : SdsRole) (opt : Option Nat)
    (config state status : List Nat)
    (serCfg : Option (List Nat → List WriterOp))
    (deserCfg : Option (List Char → List Nat → List Nat))
    (serSt : Option (List Nat → List WriterOp))
    (deserSt : Option (List Char → List Nat → List Nat))
    (serStat : Option (List Nat → List WriterOp))
    (deserStat : Option (List Char → List Nat → List Nat))
    (tables2 : List SdsTableContext) (msg : Option PubMsg)
    (h : sds_register_table_ex now nodeId tables tableType role opt config state
      status serCfg deserCfg serSt deserSt serStat deserStat = (tables2, none, msg)) :
    find_table tables tableType = none ∧
    ∃ (k : Nat) (ctxF : SdsTableContext), k < tables.length ∧
      tables2 = tables.set k ctxF ∧
      ctxF.configCallback = none ∧ ctxF.stateCallback = none ∧
      ctxF.statusCallback = none := by
  unfold sds_register_table_ex at h
  by_cases ht : tableType = ""
  · rw [if_pos ht] at h
    exact absurd h (by simp)
  · rw [if_neg ht] at h
    by_cases hdup : (find_table tables tableType).isSome
    · rw [if_pos hdup] at h
      exact absurd h (by simp)
    · rw [if_neg hdup] at h
      have hfnone : find_table tables tableType = none := by
        cases hft : find_table tables tableType
        · rfl
        · rw [hft] at hdup
          simp at hdup
      refine ⟨hfnone, ?_⟩
      cases halloc : alloc_table_slot now tables tableType role opt with
      | none =>
        rw [halloc] at h
        exact absurd h (by simp)
      | some p =>
        obtain ⟨k, tables1⟩ := p
        rw [halloc] at h
        dsimp only at h
        obtain ⟨hk, htab1⟩ := alloc_table_slot_spec halloc
        have hget : tables1.getD k emptyTableCtx = allocCtx now tableType role opt := by
          rw [htab1, List.getD_eq_getElem?_getD, List.getElem?_set_self hk,
            Option.getD_some]
        by_cases hsz : SDS_SHADOW_SIZE < config.length ∨
            SDS_SHADOW_SIZE < state.length ∨ SDS_SHADOW_SIZE < status.length
        · rw [if_pos hsz] at h
          exact absurd h (by simp)
        · rw [if_neg hsz] at h
          cases role with
          | owner =>
            cases serCfg with
            | none =>
              simp only [Prod.mk.injEq] at h
              obtain ⟨h2, -, -⟩ := h
              subst h2
              rw [hget, htab1, List.set_set]
              exact ⟨k, _, hk, rfl, rfl, rfl, rfl⟩
            | some ser =>
              dsimp only at h
              by_cases hcl : config.length ≠ 0
              · rw [if_pos hcl] at h
                simp only [Prod.mk.injEq] at h
                obtain ⟨h2, -, -⟩ := h
                subst h2
                rw [hget, htab1, List.set_set]
                exact ⟨k, _, hk, rfl, rfl, rfl, rfl⟩
              · rw [if_neg hcl] at h
                simp only [Prod.mk.injEq] at h
                obtain ⟨h2, -, -⟩ := h
                subst h2
                rw [hget, htab1, List.set_set]
                exact ⟨k, _, hk, rfl, rfl, rfl, rfl⟩
          | device =>
            simp only [Prod.mk.injEq] at h
            obtain ⟨h2, -, -⟩ := h
            subst h2
            rw [hget, htab1, List.set_set]
            exact ⟨k, _, hk, rfl, rfl, rfl, rfl⟩

/-- C10: installing a per-table callback (`sds_on_config_update`,
`sds_on_state_update`, `sds_on_status_update`) for a table type that is not
currently registered leaves the registry unchanged and reports nothing (the
setters return `void`); and after unregistering a table, any successful
re-registration of the same type yields a slot whose config, state and status
callbacks are all cleared (by the `memset` in `alloc_table_slot`), so a
callback takes effect only if installed while the table is registered. -/
theorem callback_requires_current_registration
    (tables : List SdsTableContext) (tableType : String) (cb : Option Nat)
    (now : Nat) (nodeId : String) (role : SdsRole) (opt : Option Nat)
    (config state status : List Nat)
    (serCfg : Option (List Nat → List WriterOp))
    (deserCfg : Option (List Char → List Nat → List Nat))
    (serSt : Option (List Nat → List WriterOp))
    (deserSt : Option (List Char → List Nat → List Nat))
    (serStat : Option (List Nat → List WriterOp))
    (deserStat : Option (List Char → List Nat → List Nat)) :
    (find_table tables tableType = none →
      sds_on_config_update tables tableType cb = tables ∧
      sds_on_state_update tables tableType cb = tables ∧
      sds_on_status_update tables tableType cb = tables) ∧
    (∀ (tables2 : List SdsTableContext) (msg : Option PubMsg) (i : Nat),
      sds_register_table_ex now nodeId (sds_unregister_table tables tableType).1
          tableType role opt config state status serCfg deserCfg serSt deserSt
          serStat deserStat = (tables2, none, msg) →
      find_table tables2 tableType = some i →
      (tables2.getD i emptyTableCtx).configCallback = none ∧
      (tables2.getD i emptyTableCtx).stateCallback = none ∧
      (tables2.getD i emptyTableCtx).statusCallback = none) := by
  constructor
  · intro hnone
    refine ⟨?_, ?_, ?_⟩
    · unfold sds_on_config_update
      rw [hnone]
    · unfold sds_on_state_update
      rw [hnone]
    · unfold sds_on_status_update
      rw [hnone]
  · intro tables2 msg i hreg hfind
    obtain ⟨hfnone, k, ctxF, hk, htab2, hc1, hc2, hc3⟩ :=
      register_success_shape _ _ _ _ _ _ _ _ _ _ _ _ _ _ _ _ _ hreg
    unfold find_table at hfind
    obtain ⟨hi, hpi⟩ := findSlot_some_spec _ tables2 i hfind
    by_cases hik : i = k
    · subst hik
      have hget : tables2.getD i emptyTableCtx = ctxF := by
        rw [htab2, List.getD_eq_getElem?_getD, List.getElem?_set_self hk,
          Option.getD_some]
      rw [hget]
      exact ⟨hc1, hc2, hc3⟩
    · exfalso
      have hi' : i < (sds_unregister_table tables tableType).1.length := by
        have hl : tables2.length = (sds_unregister_table tables tableType).1.length := by
          rw [htab2, List.length_set]
        omega
      have hq : tables2[i]? = (sds_unregister_table tables tableType).1[i]? := by
        rw [htab2]
        exact List.getElem?_set_ne (fun hk2 => hik hk2.symm)
      have hgi : tables2[i]? = some (tables2.get ⟨i, hi⟩) := by
        simp [List.getElem?_eq_getElem hi, List.get_eq_getElem]
      have hgu : (sds_unregister_table tables tableType).1[i]? =
          some ((sds_unregister_table tables tableType).1.get ⟨i, hi'⟩) := by
        simp [List.getElem?_eq_getElem hi', List.get_eq_getElem]
      have heq : tables2.get ⟨i, hi⟩ =
          (sds_unregister_table tables tableType).1.get ⟨i, hi'⟩ :=
        Option.some.inj (hgi.symm.trans (hq.trans hgu))
      have hmem := List.get_mem (sds_unregister_table tables tableType).1 i hi'
      unfold find_table at hfnone
      have hflat := findSlot_none_spec _ _ hfnone _ hmem
      rw [heq, hflat] at hpi
      exact Bool.noConfusion hpi

/-- Witness for C10: the setters leave an empty registry unchanged; and after
unregistering a one-slot registry holding table "T" with all three callbacks
installed and re-registering "T" as a device, the slot found for "T" carries
no callbacks. -/
theorem callback_requires_current_registration_witness :
    sds_on_config_update [] "T" (some 5) = [] ∧
    ((sds_register_table_ex 3 "n1"
        (sds_unregister_table
          [{ baseCtx with
             configCallback := some 7, stateCallback := some 8,
             statusCallback := some 9 }] "T").1
        "T" SdsRole.device none [] [] [] none none none none none none).1.getD 0
      emptyTableCtx).configCallback = none := by
  constructor
  · exact (callback_requires_current_registration [] "T" (some 5) 0 ""
      SdsRole.owner none [] [] [] none none none none none none).1 rfl |>.1
  · exact ((callback_requires_current_registration
      [{ baseCtx with
         configCallback := some 7, stateCallback := some 8,
         statusCallback := some 9 }] "T" (some 5) 3 "n1" SdsRole.device none
      [] [] [] none none none none none none).2 _ _ 0 rfl rfl).1


/-! ### C1: last-will handling and eviction (spec-modelled) -/

/-- Modelled from the spec: the status-slot fields used by last-will handling
and eviction (spec 4.4).  The corresponding code is declared in
include/sds.h (`sds_on_device_evicted`, `sds_set_owner_eviction_offsets`,
`eviction_grace_ms`) and exercised by tests/test_unit_core.c, but is absent
from src/src/sds_core.c. -/
structure EvictSlot where
  nodeId : String
  valid : Bool
  online : Bool
  evictionPending : Bool
  lastSeenMs : Nat
  evictionDeadline : Nat
deriving Repr, DecidableEq

/-- Modelled from the spec: an owner table as seen by the eviction machinery:
its table type, its status slots and its `status_count`. -/
structure EvictTable where
  tableType : String
  slots : List EvictSlot
  statusCount : Nat
deriving Repr, DecidableEq

/-- Modelled from the spec: a zero slot, used as the `getD` default. -/
def evictSlot0 : EvictSlot :=
  { nodeId := "", valid := false, online := false, evictionPending := false,
    lastSeenMs := 0, evictionDeadline := 0 }

/-- Modelled from the spec: an empty table, used as the `getD` default. -/
def evictTable0 : EvictTable := { tableType := "", slots := [], statusCount := 0 }

/-- Modelled from the spec: the effect of a last-will for device `d` on one
slot — on a valid slot for `d`, set `online=false`; if `eviction_grace_ms > 0`
also set `eviction_pending=true` and `eviction_deadline = now + grace`
(spec 4.4). -/
def markLwtSlot (graceMs now : Nat) (d : String) (s : EvictSlot) : EvictSlot :=
  if s.valid && s.nodeId == d then
    if 0 < graceMs then
      { s with online := false, evictionPending := true,
               evictionDeadline := now + graceMs }
    else { s with online := false }
  else s

/-- Modelled from the spec: a last-will applied to one table. -/
def handleLwtTable (graceMs now : Nat) (d : String) (tb : EvictTable) : EvictTable :=
  { tb with slots := tb.slots.map (markLwtSlot graceMs now d) }

/-- Modelled from the spec: a message on `sds/lwt/<d>` is owner-applicable
across all tables containing `<d>` (spec 4.6). -/
def handleLwt (graceMs now : Nat) (d : String) (tables : List EvictTable) :
    List EvictTable :=
  tables.map (handleLwtTable graceMs now d)

/-- Modelled from the spec: a slot is evicted on a tick when it is valid,
`eviction_pending` and past its deadline (spec 4.4). -/
def evictPred (now : Nat) (s : EvictSlot) : Bool :=
  s.valid && s.evictionPending && decide (s.evictionDeadline ≤ now)

/-- Modelled from the spec: the per-table eviction scan of a `loop()` tick —
invalidate every due slot, decrement `status_count` per eviction, and emit one
eviction-callback invocation `(table_type, node_id)` per evicted slot. -/
def evictionScanTable (now : Nat) (tb : EvictTable) : EvictTable × List (String × String) :=
  ({ tb with
     slots := tb.slots.map (fun s => if evictPred now s then { s with valid := false } else s),
     statusCount := tb.statusCount - (tb.slots.filter (evictPred now)).length },
   (tb.slots.filter (evictPred now)).map (fun s => (tb.tableType, s.nodeId)))

/-- Modelled from the spec: after processing all tables, `loop()` scans all
owner tables for pending evictions (spec 4.5). -/
def evictionScan (now : Nat) (tables : List EvictTable) :
    List EvictTable × List (String × String) :=
  (tables.map (fun tb => (evictionScanTable now tb).1),
   tables.flatMap (fun tb => (evictionScanTable now tb).2))

theorem getD_map_of_lt {α β : Type} (f : α → β) (l : List α) (j : Nat)
    (hj : j < l.length) (d1 : α) (d2 : β) :
    (l.map f).getD j d2 = f (l.getD j d1) := by
  rw [List.getD_eq_getElem?_getD, List.getD_eq_getElem?_getD, List.getElem?_map,
    List.getElem?_eq_getElem hj]
  rfl

theorem flatMap_map_comp {α β γ : Type} (f : α → β) (g : β → List γ) :
    ∀ l : List α, (l.map f).flatMap g = l.flatMap (fun a => g (f a)) := by
  intro l
  induction l with
  | nil => rfl
  | cons a t ih => simp only [List.map_cons, List.flatMap_cons, ih]

theorem flatMap_congr_mem {α γ : Type} {g h : α → List γ} :
    ∀ l : List α, (∀ a ∈ l, g a = h a) → l.flatMap g = l.flatMap h := by
  intro l
  induction l with
  | nil => intro _; rfl
  | cons a t ih =>
    intro H
    simp only [List.flatMap_cons]
    rw [H a (List.mem_cons_self a t), ih (fun b hb => H b (List.mem_cons_of_mem a hb))]

theorem markLwtSlot_nodeId (graceMs now : Nat) (d : String) (s : EvictSlot) :
    (markLwtSlot graceMs now d s).nodeId = s.nodeId := by
  unfold markLwtSlot
  split
  · split
    · rfl
    · rfl
  · rfl

theorem evictPred_mark (grace t0 t1 : Nat) (d : String) (s : EvictSlot)
    (hg : 0 < grace) (ht : t0 + grace ≤ t1) (hp : s.evictionPending = false) :
    evictPred t1 (markLwtSlot grace t0 d s) = (s.valid && s.nodeId == d) := by
  unfold markLwtSlot
  by_cases hm : (s.valid && s.nodeId == d) = true
  · rw [if_pos hm, if_pos hg]
    simp only [Bool.and_eq_true] at hm
    obtain ⟨hv, hd⟩ := hm
    unfold evictPred
    dsimp only
    rw [hv, hd]
    simp [ht]
  · rw [if_neg hm]
    unfold evictPred
    rw [hp]
    simp only [Bool.and_false, Bool.false_and]
    simp only [Bool.not_eq_true] at hm
    rw [hm]

theorem handleLwtTable_statusCount (graceMs now : Nat) (d : String) (tb : EvictTable) :
    (handleLwtTable graceMs now d tb).statusCount = tb.statusCount := rfl

theorem handleLwtTable_tableType (graceMs now : Nat) (d : String) (tb : EvictTable) :
    (handleLwtTable graceMs now d tb).tableType = tb.tableType := rfl

theorem lwt_filter_eq (grace t0 t1 : Nat) (d : String) (tb : EvictTable)
    (hg : 0 < grace) (ht : t0 + grace ≤ t1)
    (hclean : ∀ s ∈ tb.slots, s.evictionPending = false) :
    (handleLwtTable grace t0 d tb).slots.filter (evictPred t1) =
      (tb.slots.filter (fun s => s.valid && s.nodeId == d)).map
        (markLwtSlot grace t0 d) := by
  unfold handleLwtTable
  dsimp only
  rw [List.filter_map]
  congr 1
  apply List.filter_congr
  intro s hs
  simp only [Function.comp]
  exact evictPred_mark grace t0 t1 d s hg ht (hclean s hs)

theorem lwt_scan_events (grace t0 t1 : Nat) (d : String) (tb : EvictTable)
    (hg : 0 < grace) (ht : t0 + grace ≤ t1)
    (hclean : ∀ s ∈ tb.slots, s.evictionPending = false) :
    (evictionScanTable t1 (handleLwtTable grace t0 d tb)).2 =
      List.replicate
        ((tb.slots.filter (fun s => s.valid && s.nodeId == d)).length)
        (tb.tableType, d) := by
  unfold evictionScanTable
  dsimp only
  rw [lwt_filter_eq grace t0 t1 d tb hg ht hclean, handleLwtTable_tableType]
  have hall : ∀ b ∈ ((tb.slots.filter (fun s => s.valid && s.nodeId == d)).map
      (markLwtSlot grace t0 d)).map (fun s => (tb.tableType, s.nodeId)),
      b = (tb.tableType, d) := by
    intro b hb
    rw [List.map_map] at hb
    obtain ⟨s, hs, rfl⟩ := List.mem_map.mp hb
    have hq := (List.mem_filter.mp hs).2
    simp only [Bool.and_eq_true] at hq
    have hd : s.nodeId = d := eq_of_beq hq.2
    simp only [Function.comp]
    rw [markLwtSlot_nodeId, hd]
  rw [List.eq_replicate_of_mem hall, List.length_map, List.length_map]

theorem lwt_scan_count (grace t0 t1 : Nat) (d : String) (tb : EvictTable)
    (hg : 0 < grace) (ht : t0 + grace ≤ t1)
    (hclean : ∀ s ∈ tb.slots, s.evictionPending = false) :
    (evictionScanTable t1 (handleLwtTable grace t0 d tb)).1.statusCount =
      tb.statusCount -
        (tb.slots.filter (fun s => s.valid && s.nodeId == d)).length := by
  unfold evictionScanTable
  dsimp only
  rw [lwt_filter_eq grace t0 t1 d tb hg ht hclean, handleLwtTable_statusCount,
    List.length_map]

theorem lwt_slot_marked (grace t0 t1 : Nat) (d : String) (tb : EvictTable) (j : Nat)
    (hg : 0 < grace) (ht : t0 + grace ≤ t1)
    (hj : j < tb.slots.length)
    (hv : (tb.slots.getD j evictSlot0).valid = true)
    (hd : (tb.slots.getD j evictSlot0).nodeId = d) :
    ((handleLwtTable grace t0 d tb).slots.getD j evictSlot0).online = false ∧
    ((handleLwtTable grace t0 d tb).slots.getD j evictSlot0).evictionPending = true ∧
    ((handleLwtTable grace t0 d tb).slots.getD j evictSlot0).evictionDeadline
      = t0 + grace ∧
    (((evictionScanTable t1 (handleLwtTable grace t0 d tb)).1.slots.getD j
        evictSlot0).valid = false) := by
  have hmark : (handleLwtTable grace t0 d tb).slots.getD j evictSlot0 =
      markLwtSlot grace t0 d (tb.slots.getD j evictSlot0) := by
    unfold handleLwtTable
    dsimp only
    exact getD_map_of_lt _ _ j hj _ _
  have hmq : ((tb.slots.getD j evictSlot0).valid &&
      (tb.slots.getD j evictSlot0).nodeId == d) = true := by
    rw [hv, hd]
    simp
  have hms : markLwtSlot grace t0 d (tb.slots.getD j evictSlot0) =
      { tb.slots.getD j evictSlot0 with
        online := false, evictionPending := true,
        evictionDeadline := t0 + grace } := by
    unfold markLwtSlot
    rw [if_pos hmq, if_pos hg]
  refine ⟨?_, ?_, ?_, ?_⟩
  · rw [hmark, hms]
  · rw [hmark, hms]
  · rw [hmark, hms]
  · have hscan : (evictionScanTable t1 (handleLwtTable grace t0 d tb)).1.slots.getD j
        evictSlot0 =
        (fun s => if evictPred t1 s then { s with valid := false } else s)
          ((handleLwtTable grace t0 d tb).slots.getD j evictSlot0) := by
      unfold evictionScanTable
      dsimp only
      refine getD_map_of_lt _ _ j ?_ _ _
      unfold handleLwtTable
      dsimp only
      rw [List.length_map]
      exact hj
    have hp : evictPred t1
        { tb.slots.getD j evictSlot0 with
          online := false, evictionPending := true,
          evictionDeadline := t0 + grace } = true := by
      unfold evictPred
      dsimp only
      rw [hv]
      simp [ht]
    rw [hscan, hmark, hms]
    dsimp only
    rw [if_pos hp]

/-- C1: for an owner with `eviction_grace_ms > 0` holding valid status slots
for device `d` and no eviction already pending: when a last-will for `d`
arrives at `t0`, every valid slot for `d` gets `online=false`,
`eviction_pending=true` and `eviction_deadline = t0 + grace`; and a later
`loop()` tick at `t1 ≥ t0 + grace` invalidates those slots, decrements each
table's `status_count` by the number of its valid `d`-slots, and emits one
eviction-callback invocation `(table_type, d)` per valid `d`-slot — hence
exactly once per table in which `d` appeared when slots are unique.
(Spec-modelled: this code is missing from src/src/sds_core.c.) -/
theorem lwt_then_eviction_after_grace (grace t0 t1 : Nat) (d : String)
    (tables : List EvictTable) (hg : 0 < grace) (ht : t0 + grace ≤ t1)
    (hclean : ∀ tb ∈ tables, ∀ s ∈ tb.slots, s.evictionPending = false) :
    (∀ i, i < tables.length →
      ∀ j, j < (tables.getD i evictTable0).slots.length →
        ((tables.getD i evictTable0).slots.getD j evictSlot0).valid = true →
        ((tables.getD i evictTable0).slots.getD j evictSlot0).nodeId = d →
        ((((handleLwt grace t0 d tables).getD i evictTable0).slots.getD j
            evictSlot0).online = false ∧
         (((handleLwt grace t0 d tables).getD i evictTable0).slots.getD j
            evictSlot0).evictionPending = true ∧
         (((handleLwt grace t0 d tables).getD i evictTable0).slots.getD j
            evictSlot0).evictionDeadline = t0 + grace) ∧
        ((((evictionScan t1 (handleLwt grace t0 d tables)).1.getD i
            evictTable0).slots.getD j evictSlot0).valid = false)) ∧
    (∀ i, i < tables.length →
      ((evictionScan t1 (handleLwt grace t0 d tables)).1.getD i
          evictTable0).statusCount =
        (tables.getD i evictTable0).statusCount -
          ((tables.getD i evictTable0).slots.filter
            (fun s => s.valid && s.nodeId == d)).length) ∧
    (evictionScan t1 (handleLwt grace t0 d tables)).2 =
      tables.flatMap (fun tb =>
        List.replicate
          ((tb.slots.filter (fun s => s.valid && s.nodeId == d)).length)
          (tb.tableType, d)) := by
  have hlen1 : (handleLwt grace t0 d tables).length = tables.length := by
    unfold handleLwt
    rw [List.length_map]
  have hh : ∀ i, i < tables.length →
      (handleLwt grace t0 d tables).getD i evictTable0 =
        handleLwtTable grace t0 d (tables.getD i evictTable0) := by
    intro i hi
    unfold handleLwt
    exact getD_map_of_lt _ _ i hi _ _
  have hs1 : ∀ i, i < tables.length →
      (evictionScan t1 (handleLwt grace t0 d tables)).1.getD i evictTable0 =
        (evictionScanTable t1
          ((handleLwt grace t0 d tables).getD i evictTable0)).1 := by
    intro i hi
    unfold evictionScan
    dsimp only
    refine getD_map_of_lt _ _ i ?_ _ _
    rw [hlen1]
    exact hi
  have hmem : ∀ i, i < tables.length → tables.getD i evictTable0 ∈ tables := by
    intro i hi
    rw [List.getD_eq_getElem?_getD, List.getElem?_eq_getElem hi, Option.getD_some]
    exact List.getElem_mem hi
  refine ⟨?_, ?_, ?_⟩
  · intro i hi j hj hv hd
    have hl3 := lwt_slot_marked grace t0 t1 d (tables.getD i evictTable0) j hg ht hj hv hd
    constructor
    · rw [hh i hi]
      exact ⟨hl3.1, hl3.2.1, hl3.2.2.1⟩
    · rw [hs1 i hi, hh i hi]
      exact hl3.2.2.2
  · intro i hi
    rw [hs1 i hi, hh i hi]
    exact lwt_scan_count grace t0 t1 d _ hg ht
      (hclean _ (hmem i hi))
  · unfold evictionScan handleLwt
    dsimp only
    rw [flatMap_map_comp]
    apply flatMap_congr_mem
    intro tb htb
    exact lwt_scan_events grace t0 t1 d tb hg ht (hclean tb htb)

/-- Witness for C1, mirroring the unit test: grace 100 ms, LWT for `d1` at
1000 ms, a single table `T` with one valid online slot for `d1`, a tick at
1110 ms: `status_count` drops to 0, the eviction callback fires once with
`("T", "d1")`, and the slot is invalidated. -/
theorem lwt_then_eviction_witness :
    ((evictionScan 1110 (handleLwt 100 1000 "d1"
        [{ tableType := "T",
           slots := [{ nodeId := "d1", valid := true, online := true,
                       evictionPending := false, lastSeenMs := 900,
                       evictionDeadline := 0 }],
           statusCount := 1 }])).1.getD 0 evictTable0).statusCount = 0 ∧
    (evictionScan 1110 (handleLwt 100 1000 "d1"
        [{ tableType := "T",
           slots := [{ nodeId := "d1", valid := true, online := true,
                       evictionPending := false, lastSeenMs := 900,
                       evictionDeadline := 0 }],
           statusCount := 1 }])).2 = [("T", "d1")] ∧
    (((evictionScan 1110 (handleLwt 100 1000 "d1"
        [{ tableType := "T",
           slots := [{ nodeId := "d1", valid := true, online := true,
                       evictionPending := false, lastSeenMs := 900,
                       evictionDeadline := 0 }],
           statusCount := 1 }])).1.getD 0 evictTable0).slots.getD 0
      evictSlot0).valid = false := by
  have h := lwt_then_eviction_after_grace 100 1000 1110 "d1"
    [{ tableType := "T",
       slots := [{ nodeId := "d1", valid := true, online := true,
                   evictionPending := false, lastSeenMs := 900,
                   evictionDeadline := 0 }],
       statusCount := 1 }] (by decide) (by decide) (by decide)
  refine ⟨?_, ?_, ?_⟩
  · rw [h.2.1 0 (by decide)]
    decide
  · rw [h.2.2]
    decide
  · exact (h.1 0 (by decide) 0 (by decide) (by decide) (by decide)).2


end SDS
